import Mathlib

/-!
A shallow embedding of the `traffic` request-validation and content-negotiation
pipeline (sources: `traffic.ts`, `issues.ts`, `mime.ts`, `types.ts`).

Conventions of the embedding:
* JavaScript runtime values flowing through the pipeline are modelled by the
  inductive type `Value` (null, undefined, booleans, integer numbers, strings,
  arrays, objects); floating point numbers are outside the modelled fragment.
* Thrown exceptions are modelled by `Except String`, the error string carrying
  the message of the thrown `Error`.
* `console.error` calls are modelled by a `List String` of log messages
  returned alongside the produced HTTP response.
* Host builtins that the sources call (`JSON.stringify`, `JSON.parse`,
  `String(x)` coercion, WHATWG `URL`/`Headers`, the `content-type` npm parser)
  are modelled by executable Lean functions over the fragment above; each model
  carries a doc comment naming the builtin it stands for.
-/

namespace Traffic

/-! ## Character and string helpers

JavaScript string primitives used by the sources, re-implemented structurally
over `List Char` so that every definition evaluates by kernel reduction. -/

/-- The `\x7b` character (left curly brace). -/
def lbrace : Char := Char.ofNat 123

/-- The `\x7d` character (right curly brace). -/
def rbrace : Char := Char.ofNat 125

/-- The double quote character. -/
def dquote : Char := Char.ofNat 34

/-- The backslash character. -/
def bslash : Char := Char.ofNat 92

/-- ASCII lower-casing of one character, as `String.prototype.toLowerCase`
acts on the ASCII range (media types are ASCII). -/
def lowerChar (c : Char) : Char :=
  if 'A' ≤ c ∧ c ≤ 'Z' then Char.ofNat (c.toNat + 32) else c

/-- ASCII lower-casing of a character list. -/
def lowerChars (cs : List Char) : List Char := cs.map lowerChar

/-- ASCII lower-casing of a string. -/
def lowerStr (s : String) : String := String.mk (lowerChars s.data)

/-- JavaScript whitespace test for `String.prototype.trim` (ASCII fragment). -/
def isWsChar (c : Char) : Bool := c = ' ' || c = Char.ofNat 9 || c = Char.ofNat 10 || c = Char.ofNat 13

/-- Model of `String.prototype.trim` on character lists. -/
def trimChars (cs : List Char) : List Char :=
  ((cs.dropWhile isWsChar).reverse.dropWhile isWsChar).reverse

/-- Characters of the string before the first occurrence of `sep`
(the whole string when `sep` does not occur), as `indexOf`/`slice` compute. -/
def takeUntilChar (sep : Char) : List Char → List Char
  | [] => []
  | c :: cs => if c = sep then [] else c :: takeUntilChar sep cs

/-- Splits a character list at every occurrence of `sep`,
as `String.prototype.split(sep)` (without limit) does. -/
def splitAllChar (sep : Char) : List Char → List (List Char)
  | [] => [[]]
  | c :: cs =>
    match splitAllChar sep cs with
    | [] => [[]]
    | hd :: tl => if c = sep then [] :: hd :: tl else (c :: hd) :: tl

/-- Model of the JavaScript `s.split(sep, 2)` call: the full split truncated
to its first two fields. -/
def jsSplit2 (s : String) (sep : Char) : List String :=
  ((splitAllChar sep s.data).take 2).map String.mk

/-- Model of `s.split(sep, 2).pop()`: the last of the (never empty) truncated
split fields. -/
def jsSplit2Pop (s : String) (sep : Char) : String :=
  match jsSplit2 s sep with
  | [] => ""
  | [a] => a
  | _ :: b :: _ => b

/-- Whether a character occurs in a string. -/
def strHasChar (s : String) (c : Char) : Bool := s.data.contains c

/-- Case-insensitive lookup in a header-name/value list, as `Headers.get`
of the fetch API resolves header names; returns the first match. -/
def headersGet (hs : List (String × String)) (name : String) : Option String :=
  match hs.find? (fun p => lowerStr p.1 = lowerStr name) with
  | some p => some p.2
  | none => none

/-- Last-binding-wins lookup in a key/value list; JavaScript object records
built by spread and assignment resolve a key to the most recent binding. -/
def recordGet {α : Type} (r : List (String × α)) (k : String) : Option α :=
  match r.reverse.find? (fun p => p.1 = k) with
  | some p => some p.2
  | none => none

/-! ## The JavaScript value model -/

mutual
/-- A JavaScript runtime value of the fragment the pipeline manipulates. -/
inductive Value where
  | null
  | undefined
  | bool (b : Bool)
  | num (n : Int)
  | str (s : String)
  | arr (xs : VList)
  | obj (fs : VFields)
  deriving DecidableEq
/-- A list of JavaScript values (array elements). -/
inductive VList where
  | nil
  | cons (hd : Value) (tl : VList)
  deriving DecidableEq
/-- Ordered own-property fields of a JavaScript object. -/
inductive VFields where
  | nil
  | cons (key : String) (val : Value) (tl : VFields)
  deriving DecidableEq
end

/-- First field with the given key, as JavaScript property lookup reads an
object built without duplicate keys. -/
def objGet (v : Value) (k : String) : Option Value :=
  match v with
  | .obj fs => go fs
  | _ => none
where
  go : VFields → Option Value
    | .nil => none
    | .cons key val tl => if key = k then some val else go tl

/-- Whether a field list binds the given key. -/
def fieldsHasKey (k : String) : VFields → Bool
  | .nil => false
  | .cons key _ tl => key = k || fieldsHasKey k tl

mutual
/-- Whether a value is a pure JSON datum of the lossless fragment: no
`undefined` anywhere and no duplicate object keys (values the host
`JSON.stringify`/`JSON.parse` pair transports without loss). -/
def Value.isPureJson : Value → Bool
  | .null => true
  | .undefined => false
  | .bool _ => true
  | .num _ => true
  | .str _ => true
  | .arr xs => VList.allPureJson xs
  | .obj fs => VFields.allPureJson fs
/-- `Value.isPureJson` on every array element. -/
def VList.allPureJson : VList → Bool
  | .nil => true
  | .cons v tl => v.isPureJson && VList.allPureJson tl
/-- `Value.isPureJson` on every field value, with distinct keys. -/
def VFields.allPureJson : VFields → Bool
  | .nil => true
  | .cons k v tl => !(fieldsHasKey k tl) && v.isPureJson && VFields.allPureJson tl
end

/-! ## Decimal numerals

Model of the host's decimal rendering and reading of integers, used by
`JSON.stringify`, `String(x)` and `JSON.parse` on the integer fragment. -/

/-- The decimal digit character for `d < 10`. -/
def digitChar10 (d : Nat) : Char := Char.ofNat (48 + d)

/-- Numeric value of a decimal digit character. -/
def charToDigit (c : Char) : Nat := c.toNat - 48

/-- Decimal digit test (`'0'` through `'9'`). -/
def isDigitChar (c : Char) : Bool := '0' ≤ c && c ≤ '9'

/-- Big-endian decimal digits of a natural number; the fuel argument only
drives structural recursion and is irrelevant once at least `n + 1`. -/
def natToCharsAux : Nat → Nat → List Char
  | 0, _ => []
  | fuel + 1, n =>
    if n < 10 then [digitChar10 n]
    else natToCharsAux fuel (n / 10) ++ [digitChar10 (n % 10)]

/-- Big-endian decimal digits of a natural number. -/
def natToChars (n : Nat) : List Char := natToCharsAux (n + 1) n

/-- Decimal rendering of an integer, as the host renders integral numbers. -/
def intToChars (n : Int) : List Char :=
  if n < 0 then '-' :: natToChars n.natAbs else natToChars n.toNat

/-- Reads a leading run of decimal digits; fails when there is none. -/
def parseDigits (cs : List Char) : Option (Nat × List Char) :=
  match cs.takeWhile isDigitChar with
  | [] => none
  | ds => some (ds.foldl (fun a c => a * 10 + charToDigit c) 0, cs.dropWhile isDigitChar)

/-! ## JSON serialization

Model of the host `JSON.stringify` builtin on the modelled value fragment.
Escape handling covers the quote, backslash, newline, tab and carriage-return
characters; other characters are emitted verbatim (the host additionally
`\u`-escapes remaining control characters, outside this fragment).
`undefined` is rendered as `null` (the host drops or substitutes `undefined`
depending on position; `undefined` is outside the pure-JSON fragment). -/

/-- JSON escape of one string character. -/
def escapeChar (c : Char) : List Char :=
  if c = dquote then [bslash, dquote]
  else if c = bslash then [bslash, bslash]
  else if c = Char.ofNat 10 then [bslash, 'n']
  else if c = Char.ofNat 9 then [bslash, 't']
  else if c = Char.ofNat 13 then [bslash, 'r']
  else [c]

/-- JSON escape of a string body. -/
def escapeChars : List Char → List Char
  | [] => []
  | c :: cs => escapeChar c ++ escapeChars cs

/-- A JSON string literal: quote, escaped body, quote. -/
def quoteChars (s : String) : List Char := dquote :: escapeChars s.data ++ [dquote]

mutual
/-- Model of `JSON.stringify` producing a character list. -/
def stringifyV : Value → List Char
  | .null => "null".data
  | .undefined => "null".data
  | .bool true => "true".data
  | .bool false => "false".data
  | .num n => intToChars n
  | .str s => quoteChars s
  | .arr xs => '[' :: stringifyVL xs ++ [']']
  | .obj fs => lbrace :: stringifyVF fs ++ [rbrace]
/-- Comma-separated stringification of array elements. -/
def stringifyVL : VList → List Char
  | .nil => []
  | .cons v .nil => stringifyV v
  | .cons v (.cons w tl) => stringifyV v ++ ',' :: stringifyVL (.cons w tl)
/-- Comma-separated stringification of object fields. -/
def stringifyVF : VFields → List Char
  | .nil => []
  | .cons k v .nil => quoteChars k ++ ':' :: stringifyV v
  | .cons k v (.cons k2 w tl) => quoteChars k ++ ':' :: stringifyV v ++ ',' :: stringifyVF (.cons k2 w tl)
end

/-- Model of the host `JSON.stringify` builtin (string result). -/
def jsonStringify (v : Value) : String := String.mk (stringifyV v)

mutual
/-- Model of the JavaScript `String(x)` coercion on the value fragment. -/
def jsString : Value → String
  | .null => "null"
  | .undefined => "undefined"
  | .bool true => "true"
  | .bool false => "false"
  | .num n => String.mk (intToChars n)
  | .str s => s
  | .arr xs => String.mk (jsStringVL xs)
  | .obj _ => "[object Object]"
/-- Array `toString`: elements joined by commas, `null` and `undefined`
elements rendered empty. -/
def jsStringVL : VList → List Char
  | .nil => []
  | .cons v .nil => jsStringElem v
  | .cons v (.cons w tl) => jsStringElem v ++ ',' :: jsStringVL (.cons w tl)
/-- One array element under `Array.prototype.toString`: `null` and
`undefined` render empty, other values as `String(x)` renders them. -/
def jsStringElem : Value → List Char
  | .null => []
  | .undefined => []
  | .bool true => "true".data
  | .bool false => "false".data
  | .num n => intToChars n
  | .str s => s.data
  | .arr xs => jsStringVL xs
  | .obj _ => "[object Object]".data
end

/-! ## JSON parsing

Model of the host `JSON.parse` builtin on the modelled fragment: numbers are
read as integers, the escape set matches the serializer above, and
insignificant whitespace is not part of the fragment.  The fuel argument only
drives structural recursion; the entry point supplies more fuel than any
input can consume. -/

/-- Consumes an expected literal character sequence. -/
def expectChars : List Char → List Char → Option (List Char)
  | [], cs => some cs
  | _ :: _, [] => none
  | p :: ps, c :: cs => if c = p then expectChars ps cs else none

/-- Maps a JSON escape letter to the character it denotes. -/
def unescapeChar (c : Char) : Option Char :=
  if c = dquote then some dquote
  else if c = bslash then some bslash
  else if c = '/' then some '/'
  else if c = 'n' then some (Char.ofNat 10)
  else if c = 't' then some (Char.ofNat 9)
  else if c = 'r' then some (Char.ofNat 13)
  else none

/-- Reads a JSON string body up to its closing quote. -/
def parseStrAux : List Char → Option (List Char × List Char)
  | [] => none
  | c :: rest =>
    if c = dquote then some ([], rest)
    else if c = bslash then
      match rest with
      | [] => none
      | e :: rest2 =>
        match unescapeChar e with
        | none => none
        | some c2 =>
          match parseStrAux rest2 with
          | none => none
          | some p => some (c2 :: p.1, p.2)
    else
      match parseStrAux rest with
      | none => none
      | some p => some (c :: p.1, p.2)

/-- Closes a bracketed construct: the remainder must start with the given
closing character, which is consumed. -/
def closeTok {A : Type} (c : Char) (p : A × List Char) : Option (A × List Char) :=
  match p.2 with
  | [] => none
  | e :: r2 => if e = c then some (p.1, r2) else none

mutual
/-- Reads one JSON value. -/
def parseVal : Nat → List Char → Option (Value × List Char)
  | 0, _ => none
  | _ + 1, [] => none
  | fuel + 1, c :: rest =>
    if c = 'n' then (expectChars "ull".data rest).map (fun r => (Value.null, r))
    else if c = 't' then (expectChars "rue".data rest).map (fun r => (Value.bool true, r))
    else if c = 'f' then (expectChars "alse".data rest).map (fun r => (Value.bool false, r))
    else if c = dquote then (parseStrAux rest).map (fun p => (Value.str (String.mk p.1), p.2))
    else if c = '[' then parseArrTail fuel rest
    else if c = lbrace then parseObjTail fuel rest
    else if c = '-' then (parseDigits rest).map (fun p => (Value.num (-(p.1 : Int)), p.2))
    else if isDigitChar c then (parseDigits (c :: rest)).map (fun p => (Value.num (p.1 : Int), p.2))
    else none
/-- Reads the remainder of an array after its opening bracket. -/
def parseArrTail : Nat → List Char → Option (Value × List Char)
  | _, [] => none
  | 0, _ :: _ => none
  | fuel + 1, r0 :: r =>
    if r0 = ']' then some (Value.arr VList.nil, r)
    else (parseElems fuel (r0 :: r)).bind (fun p => (closeTok ']' p).map (fun q => (Value.arr q.1, q.2)))
/-- Reads the remainder of an object after its opening brace. -/
def parseObjTail : Nat → List Char → Option (Value × List Char)
  | _, [] => none
  | 0, _ :: _ => none
  | fuel + 1, r0 :: r =>
    if r0 = rbrace then some (Value.obj VFields.nil, r)
    else (parseFields fuel (r0 :: r)).bind (fun p => (closeTok rbrace p).map (fun q => (Value.obj q.1, q.2)))
/-- Reads one or more comma-separated JSON values. -/
def parseElems : Nat → List Char → Option (VList × List Char)
  | 0, _ => none
  | fuel + 1, cs => (parseVal fuel cs).bind (parseElemsCont fuel)
/-- After one element: either a comma and further elements, or the end. -/
def parseElemsCont : Nat → Value × List Char → Option (VList × List Char)
  | _, (v, []) => some (VList.cons v VList.nil, [])
  | 0, (v, s :: r) => if s = ',' then none else some (VList.cons v VList.nil, s :: r)
  | fuel + 1, (v, s :: r) =>
    if s = ',' then (parseElems fuel r).map (fun q => (VList.cons v q.1, q.2))
    else some (VList.cons v VList.nil, s :: r)
/-- Reads one or more comma-separated `"key":value` JSON fields. -/
def parseFields : Nat → List Char → Option (VFields × List Char)
  | 0, _ => none
  | _ + 1, [] => none
  | fuel + 1, c :: rest =>
    if c = dquote then (parseStrAux rest).bind (parseFieldsKeyCont fuel)
    else none
/-- After a field key: a colon and the field value. -/
def parseFieldsKeyCont : Nat → List Char × List Char → Option (VFields × List Char)
  | _, (_, []) => none
  | 0, (_, _ :: _) => none
  | fuel + 1, (k, s :: r) =>
    if s = ':' then (parseVal fuel r).bind (parseFieldsValCont fuel (String.mk k))
    else none
/-- After one field: either a comma and further fields, or the end. -/
def parseFieldsValCont : Nat → String → Value × List Char → Option (VFields × List Char)
  | _, k, (v, []) => some (VFields.cons k v VFields.nil, [])
  | 0, k, (v, s :: r) => if s = ',' then none else some (VFields.cons k v VFields.nil, s :: r)
  | fuel + 1, k, (v, s :: r) =>
    if s = ',' then (parseFields fuel r).map (fun q => (VFields.cons k v q.1, q.2))
    else some (VFields.cons k v VFields.nil, s :: r)
end

/-- Model of the host `JSON.parse` builtin; the error is the `SyntaxError`
the host throws on malformed input.  The fuel `4 * length + 4` exceeds what
any input can consume. -/
def jsonParse (s : String) : Except String Value :=
  match parseVal (4 * s.data.length + 4) s.data with
  | some (v, []) => .ok v
  | _ => .error "Unexpected token in JSON"

/-! ## Roundtrip of the JSON codec model -/

mutual
/-- Structural size driving the parser fuel bound. -/
def vsize : Value → Nat
  | .null => 1
  | .undefined => 1
  | .bool _ => 1
  | .num _ => 1
  | .str _ => 1
  | .arr xs => lsize xs + 2
  | .obj fs => fsize fs + 2
/-- Structural size of an element list. -/
def lsize : VList → Nat
  | .nil => 1
  | .cons v tl => vsize v + lsize tl + 2
/-- Structural size of a field list. -/
def fsize : VFields → Nat
  | .nil => 1
  | .cons _ v tl => vsize v + fsize tl + 2
end

/-- Whether the continuation cannot extend a decimal numeral. -/
def headNotDigit : List Char → Bool
  | [] => true
  | c :: _ => !isDigitChar c

/-- Whether the continuation stops a comma-separated sequence. -/
def stopsList : List Char → Bool
  | [] => true
  | c :: _ => !(c = ',') && !isDigitChar c

/-- The continuation starts with an element failing `p` (or is empty). -/
def headStops {α : Type} (p : α → Bool) : List α → Prop
  | [] => True
  | c :: _ => p c = false

/-- Tail of a comma-separated rendering after its first element. -/
def listSepL : VList → List Char
  | .nil => []
  | .cons w tl2 => ',' :: stringifyVL (.cons w tl2)

/-- Tail of a comma-separated field rendering after its first field. -/
def listSepF : VFields → List Char
  | .nil => []
  | .cons k2 w tl2 => ',' :: stringifyVF (.cons k2 w tl2)

/-! ## The zod schema engine model

The schema-validation engine is an external collaborator of the sources
(spec §1); a schema is modelled as its `safeParse` behavior: a function from
the input value to either the parsed data or a structured error. -/

/-- A single structured validation issue as zod reports it (message part). -/
structure ZodIssue where
  message : String
  deriving DecidableEq

/-- A zod validation error: the structured list of issues. -/
structure ZodError where
  issues : List ZodIssue
  deriving DecidableEq

/-- Model of a zod schema: its `safeParse` as a function. -/
def Schema : Type := Value → Except ZodError Value

/-- Model of `z.string()`: accepts exactly strings. -/
def zString : Schema := fun v =>
  match v with
  | .str s => .ok (.str s)
  | _ => .error ⟨[⟨"Expected string"⟩]⟩

/-- Model of `z.literal(lit)` for a string literal: accepts exactly that
string. -/
def zLiteral (lit : String) : Schema := fun v =>
  if v = .str lit then .ok v else .error ⟨[⟨"Invalid literal value"⟩]⟩

/-- Field lookup on an object's fields; missing fields read as `undefined`. -/
def fieldLookup (fs : VFields) (k : String) : Value :=
  match objGet (.obj fs) k with
  | some v => v
  | none => .undefined

/-- Field-by-field validation for `zObject`: first failure wins. -/
def zObjectGo : List (String × Schema) → VFields → Except ZodError VFields
  | [], _ => .ok .nil
  | (k, sch) :: tl, fs =>
    match sch (fieldLookup fs k) with
    | .ok data => (zObjectGo tl fs).map (fun rest => .cons k data rest)
    | .error e => .error e

/-- Model of `z.object(shape).safeParse`: requires an object, validates each
declared field (missing fields are `undefined`), strips undeclared fields. -/
def zObject (shape : List (String × Schema)) : Schema := fun v =>
  match v with
  | .obj fs => (zObjectGo shape fs).map Value.obj
  | _ => .error ⟨[⟨"Expected object"⟩]⟩

/-! ## The `mime.ts` model -/

/-- Token characters of a media type, as the `content-type` package's
`TYPE_REGEXP` accepts them (RFC 6838 restricted token set). -/
def isTokenChar (c : Char) : Bool :=
  c.isAlpha || isDigitChar c || c = '!' || c = '#' || c = '$' || c = '%' || c = '&' ||
  c = Char.ofNat 39 || c = '*' || c = '+' || c = '.' || c = '^' || c = '_' ||
  c = Char.ofNat 96 || c = '|' || c = '~' || c = '-'

/-- Model of the `content-type` npm package's `parse`: takes the part before
any `;`, trims it, validates it as `token "/" token`, and lower-cases it.
Media-type parameters are not modelled (the sources never read `params`).
Malformed input throws (`Except.error`). -/
def parseContentType (s : String) : Except String String :=
  let media := trimChars (takeUntilChar ';' s.data)
  match splitAllChar '/' media with
  | [a, b] =>
    if a ≠ [] && b ≠ [] && a.all isTokenChar && b.all isTokenChar then
      .ok (String.mk (lowerChars media))
    else .error "invalid media type"
  | _ => .error "invalid media type"

/-- The `Mime` class of `mime.ts`.  The `suffix` field is declared
`string | null` in the source; the constructor only ever stores a present
suffix because it throws otherwise. -/
structure Mime where
  type : String
  media : String
  subtype : String
  protocol : String
  suffix : Option String
  deriving DecidableEq

/-- JavaScript truthiness of a possibly-undefined string. -/
def optTruthy : Option String → Bool
  | none => false
  | some s => !(s = "")

/-- The `Mime` constructor: parses via the `content-type` package, splits the
normalized type on `/` and on `+` (limit 2), and throws `Invalid mime type.`
when any of media, subtype, protocol or suffix is missing or empty. -/
def Mime.new (mimeType : String) : Except String Mime := do
  let t ← parseContentType mimeType
  let p1 := jsSplit2 t '/'
  let p2 := jsSplit2 t '+'
  if optTruthy (p1.get? 0) && optTruthy (p1.get? 1) &&
      optTruthy (p2.get? 0) && optTruthy (p2.get? 1) then
    pure { type := t, media := (p1.get? 0).getD "", subtype := (p1.get? 1).getD "",
           protocol := (p2.get? 0).getD "", suffix := p2.get? 1 }
  else
    .error "Invalid mime type."

/-! ## The `issues.ts` model -/

/-- The heterogeneous extra fields of the issue payloads. -/
inductive IssueExtra where
  | validation (description : String) (issues : List ZodIssue)
  | supported (description : String) (supported : List String)
  | message (description : String)
  | empty
  deriving DecidableEq

/-- A structured issue as `issues.ts` declares it; `deflected` is optional
in the `Issue` interface. -/
structure Issue where
  code : String
  status : Nat
  deflected : Option Bool
  headers : Option (List (String × String))
  extra : IssueExtra
  deriving DecidableEq

/-- What an issue factory returns: everything but the `code`
(`Omit<Issue, "code">`). -/
structure IssueSeed where
  status : Nat
  deflected : Option Bool := none
  headers : Option (List (String × String)) := none
  extra : IssueExtra := .empty
  deriving DecidableEq

/-- Argument tuples passed to issue factories. -/
inductive IssueArgs where
  | zerr (error : ZodError)
  | strs (supported : List String)
  | unit
  deriving DecidableEq

/-- An issue factory; factories are modelled on their declared argument
shape, a thrown `TypeError` (e.g. reading `issues[0]!.message` off a
non-error) is `Except.error`. -/
def IssueFactory : Type := IssueArgs → Except String IssueSeed

/-- The `Issues` registry class of `issues.ts`. -/
structure Issues where
  issues : List (String × IssueFactory)

/-- `Issues.new`: looks up the factory (an unregistered code throws), invokes
it, stamps `code`, and applies `deflected ??= false`. -/
def Issues.new (self : Issues) (code : String) (args : IssueArgs) : Except String Issue :=
  match recordGet self.issues code with
  | none => .error "TypeError: this.issues[code] is not a function"
  | some factory =>
    match factory args with
    | .error err => .error err
    | .ok seed =>
      .ok { code := code, status := seed.status,
            deflected := some (seed.deflected.getD false),
            headers := seed.headers, extra := seed.extra }

/-- `Issues.override`: replaces (or newly registers) the factory for a code;
the record lookup resolves to the latest binding. -/
def Issues.override (self : Issues) (code : String) (factory : IssueFactory) : Issues :=
  { issues := self.issues ++ [(code, factory)] }

/-- Shared body of the four `invalid-*` factories of `trafficIssues`: status
400, `deflected: true`, first issue's message as the description plus the
full structured issue list; an empty issue list makes `issues[0]!.message`
throw. -/
def validationFactory : IssueFactory := fun args =>
  match args with
  | .zerr e =>
    match e.issues with
    | i :: _ => .ok { status := 400, deflected := some true,
                      extra := .validation i.message e.issues }
    | [] => .error "TypeError: Cannot read properties of undefined (reading 'message')"
  | _ => .error "TypeError: Cannot read properties of undefined (reading '0')"

/-- The `unsupported-content-type` factory: status 400, `deflected: true`,
the supported subtype list attached. -/
def unsupportedContentTypeFactory : IssueFactory := fun args =>
  match args with
  | .strs supported =>
    .ok { status := 400, deflected := some true,
          extra := .supported "Request content type is not supported." supported }
  | _ => .error "invalid arguments"

/-- The `unsupported-content` factory: status 400, `deflected: false`. -/
def unsupportedContentFactory : IssueFactory := fun _ =>
  .ok { status := 400, deflected := some false,
        extra := .message "Server is unable to parse the provided content." }

/-- The `unknown` factory: status 500, `deflected: false`. -/
def unknownFactory : IssueFactory := fun _ =>
  .ok { status := 500, deflected := some false,
        extra := .message "Unknown server error." }

/-- The built-in `trafficIssues` factory map of `issues.ts`. -/
def trafficIssues : List (String × IssueFactory) :=
  [("/traffic/request/invalid-params", validationFactory),
   ("/traffic/request/invalid-query", validationFactory),
   ("/traffic/request/invalid-headers", validationFactory),
   ("/traffic/request/invalid-content", validationFactory),
   ("/traffic/request/unsupported-content-type", unsupportedContentTypeFactory),
   ("/traffic/request/unsupported-content", unsupportedContentFactory),
   ("/traffic/unknown", unknownFactory)]

/-! ## Issues as JavaScript objects (for `JSON.stringify`) -/

/-- A `ZodIssue` as a JavaScript object (message fragment). -/
def zodIssueToValue (i : ZodIssue) : Value := .obj (.cons "message" (.str i.message) .nil)

/-- A zod issue list as a JavaScript array. -/
def zodIssuesToVList : List ZodIssue → VList
  | [] => .nil
  | i :: tl => .cons (zodIssueToValue i) (zodIssuesToVList tl)

/-- A string list as a JavaScript array. -/
def strsToVList : List String → VList
  | [] => .nil
  | s :: tl => .cons (.str s) (strsToVList tl)

/-- The extra payload fields of an issue, in factory declaration order. -/
def extraFields : IssueExtra → VFields → VFields
  | .validation d is, rest =>
    .cons "description" (.str d) (.cons "issues" (.arr (zodIssuesToVList is)) rest)
  | .supported d ss, rest =>
    .cons "description" (.str d) (.cons "supported" (.arr (strsToVList ss)) rest)
  | .message d, rest => .cons "description" (.str d) rest
  | .empty, rest => rest

/-- The `deflected` property when present (`JSON.stringify` drops an
`undefined` property). -/
def deflectedFields : Option Bool → VFields → VFields
  | none, rest => rest
  | some b, rest => .cons "deflected" (.bool b) rest

/-- The optional `headers` property. -/
def headersFields : Option (List (String × String)) → VFields → VFields
  | none, rest => rest
  | some hs, rest => .cons "headers" (.obj (headersObj hs)) rest
where
  headersObj : List (String × String) → VFields
    | [] => .nil
    | (k, v) :: tl => .cons k (.str v) (headersObj tl)

/-- An `Issue` as the JavaScript object the factories build: the factory's
own-property order (status, deflected, description, extras, headers), then
the `code` stamped afterwards by `Issues.new`. -/
def issueToValue (issue : Issue) : Value :=
  .obj (.cons "status" (.num (issue.status : Int))
    (deflectedFields issue.deflected
      (extraFields issue.extra
        (headersFields issue.headers
          (.cons "code" (.str issue.code) .nil)))))

/-! ## Route definition types (`types.ts`) -/

/-- A `T | readonly T[]` field of the route definition types. -/
inductive OneOrMany (α : Type) where
  | one (a : α)
  | many (xs : List α)

/-- `isArray(x) ? x : [x]` as `traffic.ts` normalizes `OneOrMany` fields. -/
def OneOrMany.toArray {α : Type} : OneOrMany α → List α
  | .one a => [a]
  | .many xs => xs

/-- A `params`/`query` per-field schema entry: `true | z.ZodType`. -/
inductive ParamSchemaDef where
  | anyString
  | schema (s : Schema)

/-- A `headers` per-field schema entry: `string | z.ZodType`. -/
inductive HeaderSchemaDef where
  | literal (lit : String)
  | schema (s : Schema)

/-- A `content` declaration: `z.ZodType | z.ZodRawShape`. -/
inductive ContentDef where
  | ztype (s : Schema)
  | shape (fs : List (String × Schema))

/-- `schema === true ? z.string() : schema` of the params/query stages. -/
def paramSchemaToZod : ParamSchemaDef → Schema
  | .anyString => zString
  | .schema s => s

/-- `typeof schema === "string" ? z.literal(schema) : schema` of the headers
stage. -/
def headerSchemaToZod : HeaderSchemaDef → Schema
  | .literal lit => zLiteral lit
  | .schema s => s

/-- `content instanceof ZodType ? content : z.object(content)`. -/
def contentDefToSchema : ContentDef → Schema
  | .ztype s => s
  | .shape fs => zObject fs

/-- A `ResponseDefinition` of `types.ts` (the `headers`/`optional` members
are never read by `Traffic.route` and are omitted). -/
structure ResponseDefinition where
  status : Nat
  mime : OneOrMany String
  raw : Bool := false
  content : Option ContentDef := none

/-- A `RequestDefinition` of `types.ts` (the `raw`/`optional` members are
never read by `Traffic.route` and are omitted). -/
structure RequestDefinition where
  mime : OneOrMany String
  params : Option (List (String × ParamSchemaDef)) := none
  query : Option (List (String × ParamSchemaDef)) := none
  headers : Option (List (String × HeaderSchemaDef)) := none
  content : Option ContentDef := none

/-- A `RouteDefinition` of `types.ts` (`method`, `path`, `description` and
the type-level `issues` list are never read by `Traffic.route`). -/
structure RouteDefinition where
  request : RequestDefinition
  response : OneOrMany ResponseDefinition

/-! ## Requests and responses -/

/-- The WHATWG `URL` of an incoming request, pre-parsed: the route function
only reads `searchParams`, and route URLs come from the server, so
`new URL(request.url)` is modelled as yielding this structure. -/
structure URLModel where
  searchParams : List (String × String)
  deriving DecidableEq

/-- `URLSearchParams.get`: the first value under the name, or null (`none`). -/
def searchParamsGet (u : URLModel) (name : String) : Option String :=
  match u.searchParams.find? (fun p => p.1 = name) with
  | some p => some p.2
  | none => none

/-- An incoming HTTP request: URL, header map, raw body text. -/
structure HttpRequest where
  url : URLModel
  headers : List (String × String)
  body : String

/-- An outgoing HTTP response as the sources build one: status, optional
body, optional headers. -/
structure HttpResponse where
  status : Nat
  body : Option Value
  headers : Option (List (String × String))
  deriving DecidableEq

/-! ## The `Traffic` class (`traffic.ts`) -/

/-- The `Traffic` class state: the issue registry and the default response
type; the instance members `parse` and `serialize` alias the static codecs
and are modelled by the static functions below. -/
structure Traffic where
  issues : Issues
  defaultResponseType : String

/-- The `Traffic` constructor: `{ ...trafficIssues, ...options?.issues }`,
user-supplied factories shadowing built-ins of the same code. -/
def Traffic.make (userIssues : List (String × IssueFactory)) : Traffic :=
  { issues := ⟨trafficIssues ++ userIssues⟩, defaultResponseType := "application/json" }

/-- `mime?.suffix ?? mime?.subtype`: the dispatch key of both codecs. -/
def mimeSwitchKey : Option Mime → Option String
  | none => none
  | some m =>
    match m.suffix with
    | some s => some s
    | none => some m.subtype

/-- Model of multipart form-data decoding (`request.formData()`), a host
capability whose decoded shape no claim depends on; modelled as the raw
body text. -/
def formDataValue (body : String) : Value := .str body

/-- `contentType ? new Mime(contentType) : null`, where a thrown constructor
error propagates: the mime computed from an optional header value. -/
def mimeOfHeader : Option String → Except String (Option Mime)
  | some ct => if ct = "" then .ok none else (Mime.new ct).map some
  | none => .ok none

/-- `Traffic.parse` of `traffic.ts`: request body negotiation and decoding;
`request.json()` and `request.text()` are the host body readers. -/
def Traffic.parse (request : HttpRequest) : Except String (Option Value) :=
  match mimeOfHeader (headersGet request.headers "Content-Type") with
  | .error err => .error err
  | .ok mime =>
    match mimeSwitchKey mime with
    | some "json" =>
      match jsonParse request.body with
      | .error err => .error err
      | .ok v => .ok (some v)
    | some "plain" => .ok (some (.str request.body))
    | some "form-data" => .ok (some (formDataValue request.body))
    | _ => .ok none

/-- `Traffic.seralize` (sic) of `traffic.ts`: encodes a value for the target
type; `JSON.stringify` and `String(x)` are the host encoders. -/
def Traffic.seralize (data : Value) (type : String) : Except String (Option String) :=
  match (if type = "" then .ok none else (Mime.new type).map some :
      Except String (Option Mime)) with
  | .error err => .error err
  | .ok mime =>
    match mimeSwitchKey mime with
    | some "json" => .ok (some (jsonStringify data))
    | some "plain" => .ok (some (jsString data))
    | _ => .ok none

/-- `Traffic.response`: builds the outgoing response.  The source spreads a
provided headers init into the `ResponseInit` object itself
(`...(headers && { ...headers })`) instead of under a `headers` key, so the
entries never become response headers; the model records that by leaving the
response headers empty. -/
def trafficResponse (status : Nat) (body : Option Value)
    (headers : Option (List (String × String))) : HttpResponse :=
  let _ := headers
  { status := status, body := body, headers := none }

/-- `issueResponseFactory` of `Traffic.route`: serializes the issue for the
`Accept` value; a serializer that throws or yields no codec is logged and
leaves the body empty, the issue's status reaching the client either way. -/
def issueResponseFactory (accept : String) (issue : Issue)
    (headers : Option (List (String × String))) : HttpResponse × List String :=
  match Traffic.seralize (issueToValue issue) accept with
  | .ok (some s) => ({ status := issue.status, body := some (.str s), headers := headers }, [])
  | .ok none => ({ status := issue.status, body := none, headers := headers },
      ["Failed to serialize issue response."])
  | .error _ => ({ status := issue.status, body := none, headers := headers },
      ["Failed to serialize issue response."])

/-- The `(status, mime)` lookup predicate of `responseFactory`:
`r.status === status && r.mime === type`; an array-valued `mime` never
equals the string `type`. -/
def responseMatches (status : Nat) (type : String) (r : ResponseDefinition) : Bool :=
  (r.status == status) && (match r.mime with | .one s => s == type | .many _ => false)

/-- `responseFactory` of `Traffic.route`: finds the declared response
definition — the source asserts the lookup with `find(...)!`, so a missing
definition throws when `.raw` is read on `undefined` — sends raw payloads
unvalidated, validates the rest, and on schema failure logs the defect and
substitutes a `/traffic/unknown` issue response. -/
def responseFactory (traffic : Traffic) (defn : RouteDefinition) (accept : String)
    (status : Nat) (type : String) (rawData : Option Value)
    (headers : Option (List (String × String))) :
    Except String (HttpResponse × List String) :=
  let responses := defn.response.toArray
  match responses.find? (responseMatches status type) with
  | none => .error "TypeError: Cannot read properties of undefined (reading 'raw')"
  | some rdef =>
    if rdef.raw then
      .ok (trafficResponse status rawData headers, [])
    else
      match rdef.content with
      | none => .error "TypeError: z.object of undefined"
      | some cdef =>
        match contentDefToSchema cdef (rawData.getD .undefined) with
        | .ok data => .ok (trafficResponse status (some data) headers, [])
        | .error _ =>
          match Issues.new traffic.issues "/traffic/unknown" .unit with
          | .error err => .error err
          | .ok issue =>
            let r := issueResponseFactory accept issue none
            .ok (r.1, "Response content is invalid." :: r.2)

/-- Builds and emits a registry issue response (stage short-circuit). -/
def emitIssue (traffic : Traffic) (accept : String) (code : String) (args : IssueArgs) :
    Except String (HttpResponse × List String) :=
  (Issues.new traffic.issues code args).map (fun issue => issueResponseFactory accept issue none)

/-! ## The validation pipeline stages of `Traffic.route` -/

/-- The params stage: each declared param is read from the resolved path
params (`rawParams[key]`, `undefined` when missing) and run through
`schema === true ? z.string() : schema`; the first failure aborts. -/
def validateParams : List (String × ParamSchemaDef) → List (String × String) →
    Except ZodError (List (String × Value))
  | [], _ => .ok []
  | (key, schemaDef) :: tl, rawParams =>
    let value : Value :=
      match recordGet rawParams key with
      | some s => .str s
      | none => .undefined
    match paramSchemaToZod schemaDef value with
    | .ok data => (validateParams tl rawParams).map (fun rest => (key, data) :: rest)
    | .error e => .error e

/-- The query stage: values from `new URL(request.url).searchParams.get`
(null when missing). -/
def validateQuery : List (String × ParamSchemaDef) → HttpRequest →
    Except ZodError (List (String × Value))
  | [], _ => .ok []
  | (key, schemaDef) :: tl, request =>
    let value : Value :=
      match searchParamsGet request.url key with
      | some s => .str s
      | none => .null
    match paramSchemaToZod schemaDef value with
    | .ok data => (validateQuery tl request).map (fun rest => (key, data) :: rest)
    | .error e => .error e

/-- The headers stage.  Exactly as the source reads it, the validated value
for each declared header name comes from the URL's search params
(`searchParams.get(key)`), not from the request's header map. -/
def validateHeaders : List (String × HeaderSchemaDef) → HttpRequest →
    Except ZodError (List (String × Value))
  | [], _ => .ok []
  | (key, schemaDef) :: tl, request =>
    let value : Value :=
      match searchParamsGet request.url key with
      | some s => .str s
      | none => .null
    match headerSchemaToZod schemaDef value with
    | .ok data => (validateHeaders tl request).map (fun rest => (key, data) :: rest)
    | .error e => .error e

/-- The content-type compatibility stage of `Traffic.route`: parses the
`Content-Type` header (absent means `application/octet-stream` per
RFC 7231), takes `type.split("+", 2).pop()` as the subtype key, and when the
route does not support it hand-builds a `JSON.stringify`-ed issue response
(`Sum.inl`); otherwise passes the effective type on (`Sum.inr`). -/
def contentTypeStage (traffic : Traffic) (defn : RouteDefinition) (request : HttpRequest) :
    Except String (Sum (HttpResponse × List String) String) :=
  match mimeOfHeader (headersGet request.headers "Content-Type") with
  | .error err => .error err
  | .ok contentType =>
    let type :=
      match contentType with
      | some m => m.type
      | none => "application/octet-stream"
    let subtype := jsSplit2Pop type '+'
    let supportedTypes := defn.request.mime.toArray
    if supportedTypes.contains subtype then
      .ok (.inr type)
    else
      match Issues.new traffic.issues "/traffic/request/unsupported-content-type"
          (.strs supportedTypes) with
      | .error err => .error err
      | .ok error =>
        .ok (.inl ({ status := error.status,
                     body := some (.str (jsonStringify (issueToValue error))),
                     headers := none }, []))

/-! ## The compiled route (`Traffic.route`) -/

/-- The `RequestContext` handed to the handler, with the bound `response`
and `issue` operations (`issue` is bound to `issueResponseFactory`, whose
runtime signature takes the issue object itself). -/
structure RequestContext where
  request : HttpRequest
  url : URLModel
  params : List (String × Value)
  query : List (String × Value)
  headers : List (String × Value)
  content : Option (String × Value)
  response : Nat → String → Option Value → Option (List (String × String)) →
    Except String (HttpResponse × List String)
  issue : Issue → Option (List (String × String)) → HttpResponse × List String
  traffic : Traffic

/-- A route handler: from the request context to a response (with the log
messages of any factory calls it made). -/
def RouteHandler : Type := RequestContext → Except String (HttpResponse × List String)

/-- `Traffic.route`: the compiled route function.  Stages run in the fixed
order params → query → headers → content-type → body; each either merges
its output into the context or short-circuits with an issue response, and
only then is the handler invoked. -/
def Traffic.route (traffic : Traffic) (defn : RouteDefinition) (handler : RouteHandler)
    (rawParams : List (String × String)) (request : HttpRequest) :
    Except String (HttpResponse × List String) :=
  let accept := (headersGet request.headers "Accept").getD traffic.defaultResponseType
  let paramsStage : Except String (Sum (HttpResponse × List String) (List (String × Value))) :=
    match defn.request.params with
    | none => .ok (.inr [])
    | some ps =>
      match validateParams ps rawParams with
      | .ok vs => .ok (.inr vs)
      | .error e =>
        (emitIssue traffic accept "/traffic/request/invalid-params" (.zerr e)).map .inl
  match paramsStage with
  | .error err => .error err
  | .ok (.inl resp) => .ok resp
  | .ok (.inr params) =>
    let queryStage : Except String (Sum (HttpResponse × List String) (List (String × Value))) :=
      match defn.request.query with
      | none => .ok (.inr [])
      | some qs =>
        match validateQuery qs request with
        | .ok vs => .ok (.inr vs)
        | .error e =>
          (emitIssue traffic accept "/traffic/request/invalid-query" (.zerr e)).map .inl
    match queryStage with
    | .error err => .error err
    | .ok (.inl resp) => .ok resp
    | .ok (.inr query) =>
      let headersStage : Except String (Sum (HttpResponse × List String) (List (String × Value))) :=
        match defn.request.headers with
        | none => .ok (.inr [])
        | some hs =>
          match validateHeaders hs request with
          | .ok vs => .ok (.inr vs)
          | .error e =>
            (emitIssue traffic accept "/traffic/request/invalid-headers" (.zerr e)).map .inl
      match headersStage with
      | .error err => .error err
      | .ok (.inl resp) => .ok resp
      | .ok (.inr headers) =>
        match contentTypeStage traffic defn request with
        | .error err => .error err
        | .ok (.inl resp) => .ok resp
        | .ok (.inr type) =>
          let contentStage : Except String
              (Sum (HttpResponse × List String) (Option (String × Value))) :=
            match defn.request.content with
            | none => .ok (.inr none)
            | some cdef =>
              match Traffic.parse request with
              | .error err => .error err
              | .ok none =>
                (emitIssue traffic accept "/traffic/request/unsupported-content" .unit).map .inl
              | .ok (some raw) =>
                match contentDefToSchema cdef raw with
                | .ok data => .ok (.inr (some (type, data)))
                | .error e =>
                  (emitIssue traffic accept "/traffic/request/invalid-content" (.zerr e)).map .inl
          match contentStage with
          | .error err => .error err
          | .ok (.inl resp) => .ok resp
          | .ok (.inr content) =>
            handler
              { request := request, url := request.url,
                params := params, query := query, headers := headers, content := content,
                response := fun status type2 rawData hdrs =>
                  responseFactory traffic defn accept status type2 rawData hdrs,
                issue := fun issue hdrs => issueResponseFactory accept issue hdrs,
                traffic := traffic }

/-- The first failing stage among params → query → headers with its error:
the observable trigger of the validation short-circuit. -/
def firstValidationFailure (defn : RouteDefinition) (rawParams : List (String × String))
    (request : HttpRequest) : Option (String × ZodError) :=
  let paramsRes : Option ZodError :=
    match defn.request.params with
    | none => none
    | some ps =>
      match validateParams ps rawParams with
      | .ok _ => none
      | .error e => some e
  let queryRes : Option ZodError :=
    match defn.request.query with
    | none => none
    | some qs =>
      match validateQuery qs request with
      | .ok _ => none
      | .error e => some e
  let headersRes : Option ZodError :=
    match defn.request.headers with
    | none => none
    | some hs =>
      match validateHeaders hs request with
      | .ok _ => none
      | .error e => some e
  match paramsRes with
  | some e => some ("/traffic/request/invalid-params", e)
  | none =>
    match queryRes with
    | some e => some ("/traffic/request/invalid-query", e)
    | none =>
      match headersRes with
      | some e => some ("/traffic/request/invalid-headers", e)
      | none => none

/-! ## Concrete instances used by witnesses and counterexamples -/

/-- A route supporting only the `json` request subtype, with one raw
response declaration. -/
def jsonOnlyRoute : RouteDefinition :=
  { request := { mime := .one "json" },
    response := .one { status := 200, mime := .one "json", raw := true } }

/-- A trivial handler. -/
def trivialHandler : RouteHandler := fun _ =>
  .ok ({ status := 200, body := none, headers := none }, [])

/-- A request with `Content-Type: text/plain` and an empty URL query. -/
def textPlainRequest : HttpRequest :=
  { url := ⟨[]⟩, headers := [("Content-Type", "text/plain")], body := "" }

/-- A request with the suffixed `Content-Type: text/x+plain`. -/
def suffixPlainRequest : HttpRequest :=
  { url := ⟨[]⟩, headers := [("Content-Type", "text/x+plain")], body := "" }

/-- A request with no headers, no query and an empty body. -/
def bareRequest : HttpRequest := { url := ⟨[]⟩, headers := [], body := "" }

/-- The issue the unsupported-content-type stage emits for a supported-type
list. -/
def unsupportedIssueFor (supported : List String) : Issue :=
  { code := "/traffic/request/unsupported-content-type", status := 400,
    deflected := some true, headers := none,
    extra := .supported "Request content type is not supported." supported }

/-- The short-circuit response the unsupported-content-type stage hand-builds
(`new Response(JSON.stringify(error), { status: error.status })`). -/
def unsupportedCTResponse (supported : List String) : HttpResponse × List String :=
  ({ status := 400,
     body := some (.str (jsonStringify (issueToValue (unsupportedIssueFor supported)))),
     headers := none }, [])

/-- The issue the unsupported-content-type stage emits for `jsonOnlyRoute`. -/
def unsupportedJsonIssue : Issue :=
  { code := "/traffic/request/unsupported-content-type", status := 400,
    deflected := some true, headers := none,
    extra := .supported "Request content type is not supported." ["json"] }

/-- A route declaring one non-raw response whose content schema is
`z.string()`. -/
def stringContentRoute : RouteDefinition :=
  { request := { mime := .one "json" },
    response := .one { status := 200, mime := .one "json", raw := false,
                       content := some (.ztype zString) } }

/-- A route declaring a required path param `id` with the accept-any-string
sentinel. -/
def idParamRoute : RouteDefinition :=
  { request := { mime := .one "application/octet-stream",
                 params := some [("id", ParamSchemaDef.anyString)] },
    response := .one { status := 200, mime := .one "json", raw := true } }

/-- The accept value the compiled route computes under the default
configuration: the `Accept` header or `application/json`. -/
def acceptOf (request : HttpRequest) : String :=
  (headersGet request.headers "Accept").getD "application/json"

/-- The issue a validation stage emits for a code and a zod error whose
first issue is `i`. -/
def validationIssue (code : String) (i : ZodIssue) (issues : List ZodIssue) : Issue :=
  { code := code, status := 400, deflected := some true, headers := none,
    extra := .validation i.message issues }

/-- The built-in unknown issue as `Issues.new` instantiates it. -/
def unknownIssue : Issue :=
  { code := "/traffic/unknown", status := 500, deflected := some false,
    headers := none, extra := .message "Unknown server error." }

/-- Whether a value is a string. -/
def Value.isStr : Value → Bool
  | .str _ => true
  | _ => false

/-- The representable fragment of the decode-encode roundtrip: a pure JSON
value under a json-keyed media type, a plain string under a plain-keyed
one. -/
def representable (v : Value) (type : String) : Bool :=
  match Mime.new type with
  | .ok m =>
    match mimeSwitchKey (some m) with
    | some "json" => v.isPureJson
    | some "plain" => v.isStr
    | _ => false
  | .error _ => false

/-- The value and media type of the roundtrip witness. -/
def c8val : Value := .obj (.cons "a" (.num 1) .nil)

/-- The witness media type: `json`-suffixed. -/
def c8type : String := "application/vnd+json"

/-- The witness request: the encoded body under the same content type. -/
def c8request : HttpRequest :=
  { url := ⟨[]⟩, headers := [("Content-Type", c8type)], body := jsonStringify c8val }

/-! # Theorems -/

theorem expectChars_append (p rest : List Char) : expectChars p (p ++ rest) = some rest := by
  induction p with
  | nil => rfl
  | cons c cs ih => simp [expectChars, ih]

theorem vsize_pos : ∀ v : Value, 0 < vsize v := by
  intro v; cases v <;> simp [vsize]

theorem lsize_pos : ∀ xs : VList, 0 < lsize xs := by
  intro xs; cases xs with
  | nil => simp [lsize]
  | cons v tl => have := vsize_pos v; simp only [lsize]; omega

theorem fsize_pos : ∀ fs : VFields, 0 < fsize fs := by
  intro fs; cases fs with
  | nil => simp [fsize]
  | cons k v tl => have := vsize_pos v; simp only [fsize]; omega

theorem takeWhile_append_all {α : Type} {p : α → Bool} :
    ∀ (l rest : List α), (∀ c ∈ l, p c = true) → headStops p rest →
      (l ++ rest).takeWhile p = l ∧ (l ++ rest).dropWhile p = rest
  | [], rest, _, hr => by
    cases rest with
    | nil => exact ⟨rfl, rfl⟩
    | cons c cs =>
      simp only [headStops] at hr
      simp [List.takeWhile, List.dropWhile, hr]
  | a :: l, rest, hl, hr => by
    have ha : p a = true := hl a (List.mem_cons_self a l)
    have ih := takeWhile_append_all l rest (fun c hc => hl c (List.mem_cons_of_mem a hc)) hr
    simp [List.takeWhile, List.dropWhile, ha, ih.1, ih.2]

theorem digit_round : ∀ d : Nat, d < 10 →
    charToDigit (digitChar10 d) = d ∧ isDigitChar (digitChar10 d) = true := by decide

theorem natToCharsAux_spec : ∀ fuel n, n < fuel →
    (∀ c ∈ natToCharsAux fuel n, isDigitChar c = true) ∧ natToCharsAux fuel n ≠ [] ∧
      ∀ a : Nat, (natToCharsAux fuel n).foldl (fun acc c => acc * 10 + charToDigit c) a =
        a * 10 ^ (natToCharsAux fuel n).length + n
  | 0, n, h => absurd h (by omega)
  | fuel + 1, n, h => by
    by_cases hn : n < 10
    · refine ⟨?_, ?_, ?_⟩ <;> simp only [natToCharsAux, if_pos hn]
      · intro c hc
        simp only [List.mem_singleton] at hc
        exact hc ▸ (digit_round n hn).2
      · simp
      · intro a
        simp [List.foldl, (digit_round n hn).1]
    · have hrec : n / 10 < fuel := by omega
      have ih := natToCharsAux_spec fuel (n / 10) hrec
      refine ⟨?_, ?_, ?_⟩ <;> simp only [natToCharsAux, if_neg hn]
      · intro c hc
        rcases List.mem_append.mp hc with h1 | h2
        · exact ih.1 c h1
        · simp only [List.mem_singleton] at h2
          exact h2 ▸ (digit_round (n % 10) (Nat.mod_lt n (by omega))).2
      · simp
      · intro a
        rw [List.foldl_append, ih.2.2 a]
        simp only [List.foldl, (digit_round (n % 10) (Nat.mod_lt n (by omega))).1,
          List.length_append, List.length_singleton]
        rw [pow_succ]
        have h10 : 10 * (n / 10) + n % 10 = n := Nat.div_add_mod n 10
        ring_nf
        omega

theorem natToChars_digits (n : Nat) : ∀ c ∈ natToChars n, isDigitChar c = true :=
  (natToCharsAux_spec (n + 1) n (by omega)).1

theorem natToChars_ne_nil (n : Nat) : natToChars n ≠ [] :=
  (natToCharsAux_spec (n + 1) n (by omega)).2.1

theorem natToChars_foldl (n : Nat) :
    (natToChars n).foldl (fun acc c => acc * 10 + charToDigit c) 0 = n := by
  have := (natToCharsAux_spec (n + 1) n (by omega)).2.2 0
  simpa [natToChars] using this

theorem parseDigits_natToChars (n : Nat) (rest : List Char) (hr : headNotDigit rest = true) :
    parseDigits (natToChars n ++ rest) = some (n, rest) := by
  have hstop : headStops isDigitChar rest := by
    cases rest with
    | nil => trivial
    | cons c cs =>
      simp only [headNotDigit, Bool.not_eq_true'] at hr
      exact hr
  have h := takeWhile_append_all (natToChars n) rest (natToChars_digits n) hstop
  have hne : natToChars n ≠ [] := natToChars_ne_nil n
  have hfold := natToChars_foldl n
  simp only [parseDigits, h.1, h.2]
  cases hx : natToChars n with
  | nil => exact absurd hx hne
  | cons c cs =>
    rw [hx] at hfold
    simp [hfold]

theorem parseStrAux_round :
    ∀ (cs rest : List Char), parseStrAux (escapeChars cs ++ dquote :: rest) = some (cs, rest)
  | [], rest => by
    show parseStrAux (([] : List Char) ++ dquote :: rest) = some ([], rest)
    rw [List.nil_append]
    unfold parseStrAux
    simp
  | c :: cs, rest => by
    have ih := parseStrAux_round cs rest
    by_cases h1 : c = dquote
    · subst h1
      simp +decide [escapeChars, escapeChar, parseStrAux, unescapeChar, ih]
    · by_cases h2 : c = bslash
      · subst h2
        simp +decide [escapeChars, escapeChar, parseStrAux, unescapeChar, ih]
      · by_cases h3 : c = Char.ofNat 10
        · subst h3
          simp +decide [escapeChars, escapeChar, parseStrAux, unescapeChar, ih]
        · by_cases h4 : c = Char.ofNat 9
          · subst h4
            simp +decide [escapeChars, escapeChar, parseStrAux, unescapeChar, ih]
          · by_cases h5 : c = Char.ofNat 13
            · subst h5
              simp +decide [escapeChars, escapeChar, parseStrAux, unescapeChar, ih]
            · have hesc : escapeChar c = [c] := by
                simp [escapeChar, h1, h2, h3, h4, h5]
              simp only [escapeChars, hesc, List.cons_append, List.singleton_append]
              unfold parseStrAux
              simp [h1, h2, ih]

/-! ### Parser equations and head facts -/

theorem parseVal_succ (fuel : Nat) (c : Char) (rest : List Char) :
    parseVal (fuel + 1) (c :: rest) =
      (if c = 'n' then (expectChars "ull".data rest).map (fun r => (Value.null, r))
      else if c = 't' then (expectChars "rue".data rest).map (fun r => (Value.bool true, r))
      else if c = 'f' then (expectChars "alse".data rest).map (fun r => (Value.bool false, r))
      else if c = dquote then (parseStrAux rest).map (fun p => (Value.str (String.mk p.1), p.2))
      else if c = '[' then parseArrTail fuel rest
      else if c = lbrace then parseObjTail fuel rest
      else if c = '-' then (parseDigits rest).map (fun p => (Value.num (-(p.1 : Int)), p.2))
      else if isDigitChar c then (parseDigits (c :: rest)).map (fun p => (Value.num (p.1 : Int), p.2))
      else none) := rfl

theorem parseArrTail_succ (fuel : Nat) (r0 : Char) (r : List Char) :
    parseArrTail (fuel + 1) (r0 :: r) =
      (if r0 = ']' then some (Value.arr VList.nil, r)
      else (parseElems fuel (r0 :: r)).bind
        (fun p => (closeTok ']' p).map (fun q => (Value.arr q.1, q.2)))) := rfl

theorem parseObjTail_succ (fuel : Nat) (r0 : Char) (r : List Char) :
    parseObjTail (fuel + 1) (r0 :: r) =
      (if r0 = rbrace then some (Value.obj VFields.nil, r)
      else (parseFields fuel (r0 :: r)).bind
        (fun p => (closeTok rbrace p).map (fun q => (Value.obj q.1, q.2)))) := rfl

theorem parseElems_succ (fuel : Nat) (cs : List Char) :
    parseElems (fuel + 1) cs = (parseVal fuel cs).bind (parseElemsCont fuel) := rfl

theorem parseElemsCont_nil (fuel : Nat) (v : Value) :
    parseElemsCont fuel (v, []) = some (VList.cons v VList.nil, []) := by
  cases fuel <;> rfl

theorem parseElemsCont_succ (fuel : Nat) (v : Value) (s : Char) (r : List Char) :
    parseElemsCont (fuel + 1) (v, s :: r) =
      (if s = ',' then (parseElems fuel r).map (fun q => (VList.cons v q.1, q.2))
      else some (VList.cons v VList.nil, s :: r)) := rfl

theorem parseFields_succ (fuel : Nat) (c : Char) (rest : List Char) :
    parseFields (fuel + 1) (c :: rest) =
      (if c = dquote then (parseStrAux rest).bind (parseFieldsKeyCont fuel)
      else none) := rfl

theorem parseFieldsKeyCont_succ (fuel : Nat) (k : List Char) (s : Char) (r : List Char) :
    parseFieldsKeyCont (fuel + 1) (k, s :: r) =
      (if s = ':' then (parseVal fuel r).bind (parseFieldsValCont fuel (String.mk k))
      else none) := rfl

theorem parseFieldsValCont_nil (fuel : Nat) (k : String) (v : Value) :
    parseFieldsValCont fuel k (v, []) = some (VFields.cons k v VFields.nil, []) := by
  cases fuel <;> rfl

theorem parseFieldsValCont_succ (fuel : Nat) (k : String) (v : Value) (s : Char) (r : List Char) :
    parseFieldsValCont (fuel + 1) k (v, s :: r) =
      (if s = ',' then (parseFields fuel r).map (fun q => (VFields.cons k v q.1, q.2))
      else some (VFields.cons k v VFields.nil, s :: r)) := rfl

theorem stopsList_headNotDigit {rest : List Char} (h : stopsList rest = true) :
    headNotDigit rest = true := by
  cases rest with
  | nil => rfl
  | cons c cs =>
    simp only [stopsList, Bool.and_eq_true] at h
    simp only [headNotDigit, h.2]

theorem digit_not_special (c : Char) (h : isDigitChar c = true) :
    c ≠ 'n' ∧ c ≠ 't' ∧ c ≠ 'f' ∧ c ≠ dquote ∧ c ≠ '[' ∧ c ≠ lbrace ∧ c ≠ '-' ∧
      c ≠ ']' ∧ c ≠ rbrace ∧ c ≠ ',' := by
  refine ⟨?_, ?_, ?_, ?_, ?_, ?_, ?_, ?_, ?_, ?_⟩ <;>
    (rintro rfl; exact absurd h (by decide))

theorem stringifyVL_cons (v : Value) (tl : VList) :
    stringifyVL (.cons v tl) = stringifyV v ++ listSepL tl := by
  cases tl with
  | nil => simp [stringifyVL, listSepL]
  | cons w tl2 => simp [stringifyVL, listSepL]

theorem stringifyVF_cons (k : String) (v : Value) (tl : VFields) :
    stringifyVF (.cons k v tl) = quoteChars k ++ ':' :: (stringifyV v ++ listSepF tl) := by
  cases tl with
  | nil => simp [stringifyVF, listSepF]
  | cons k2 w tl2 => simp [stringifyVF, listSepF]

theorem stringifyV_head (v : Value) :
    ∃ c cs, stringifyV v = c :: cs ∧ c ≠ ']' ∧ c ≠ rbrace := by
  cases v with
  | null => exact ⟨'n', _, rfl, by decide, by decide⟩
  | undefined => exact ⟨'n', _, rfl, by decide, by decide⟩
  | bool b =>
    cases b with
    | true => exact ⟨'t', _, rfl, by decide, by decide⟩
    | false => exact ⟨'f', _, rfl, by decide, by decide⟩
  | num n =>
    by_cases hn : n < 0
    · refine ⟨'-', natToChars n.natAbs, ?_, by decide, by decide⟩
      simp [stringifyV, intToChars, if_pos hn]
    · obtain ⟨d, ds, hd⟩ : ∃ d ds, natToChars n.toNat = d :: ds := by
        cases hx : natToChars n.toNat with
        | nil => exact absurd hx (natToChars_ne_nil _)
        | cons d ds => exact ⟨d, ds, rfl⟩
      have hdig : isDigitChar d = true := natToChars_digits _ d (by rw [hd]; exact List.mem_cons_self _ _)
      have hfacts := digit_not_special d hdig
      refine ⟨d, ds, ?_, hfacts.2.2.2.2.2.2.2.1, hfacts.2.2.2.2.2.2.2.2.1⟩
      simp [stringifyV, intToChars, if_neg hn, hd]
  | str s =>
    refine ⟨dquote, escapeChars s.data ++ [dquote], ?_, by decide, by decide⟩
    simp [stringifyV, quoteChars]
  | arr xs => exact ⟨'[', _, rfl, by decide, by decide⟩
  | obj fs => exact ⟨lbrace, _, rfl, by decide, by decide⟩

/-! ### Fuel bound -/

mutual
theorem vsize_le : ∀ v : Value, vsize v ≤ 4 * (stringifyV v).length
  | .null => by simp [vsize, stringifyV]
  | .undefined => by simp [vsize, stringifyV]
  | .bool b => by cases b <;> simp [vsize, stringifyV]
  | .num n => by
    have h : (intToChars n).length ≥ 1 := by
      by_cases hn : n < 0
      · simp [intToChars, if_pos hn]
      · simp only [intToChars, if_neg hn]
        cases hx : natToChars n.toNat with
        | nil => exact absurd hx (natToChars_ne_nil _)
        | cons d ds => simp
    simp only [vsize, stringifyV]
    omega
  | .str s => by
    simp only [vsize, stringifyV, quoteChars, List.length_cons, List.length_append]
    omega
  | .arr xs => by
    have h := lsize_le xs
    simp only [vsize, stringifyV, List.length_cons, List.length_append, List.length_singleton]
    omega
  | .obj fs => by
    have h := fsize_le fs
    simp only [vsize, stringifyV, List.length_cons, List.length_append, List.length_singleton]
    omega
theorem lsize_le : ∀ xs : VList, lsize xs ≤ 4 * (stringifyVL xs).length + 6
  | .nil => by simp [lsize, stringifyVL]
  | .cons v .nil => by
    have h := vsize_le v
    simp only [lsize, stringifyVL]
    omega
  | .cons v (.cons w tl) => by
    have h1 := vsize_le v
    have h2 := lsize_le (.cons w tl)
    simp only [lsize, stringifyVL, List.length_append, List.length_cons] at h2 ⊢
    omega
theorem fsize_le : ∀ fs : VFields, fsize fs ≤ 4 * (stringifyVF fs).length + 6
  | .nil => by simp [fsize, stringifyVF]
  | .cons k v .nil => by
    have h := vsize_le v
    simp only [fsize, stringifyVF, List.length_append, List.length_cons]
    omega
  | .cons k v (.cons k2 w tl) => by
    have h1 := vsize_le v
    have h2 := fsize_le (.cons k2 w tl)
    simp only [fsize, stringifyVF, List.length_append, List.length_cons] at h2 ⊢
    omega
end

/-! ### The roundtrip theorem for the JSON codec model -/

mutual
theorem parseVal_round : ∀ (v : Value) (fuel : Nat) (rest : List Char),
    v.isPureJson = true → vsize v < fuel → headNotDigit rest = true →
    parseVal fuel (stringifyV v ++ rest) = some (v, rest)
  | .null, fuel, rest, _, hf, _ => by
    have h1 : (1 : Nat) < fuel := by simpa [vsize] using hf
    obtain ⟨f, rfl⟩ : ∃ f, fuel = f + 1 := ⟨fuel - 1, by omega⟩
    have hs : stringifyV Value.null ++ rest = 'n' :: ("ull".data ++ rest) := rfl
    rw [hs, parseVal_succ, if_pos rfl, expectChars_append]
    rfl
  | .undefined, _, _, hp, _, _ => by simp [Value.isPureJson] at hp
  | .bool true, fuel, rest, _, hf, _ => by
    have h1 : (1 : Nat) < fuel := by simpa [vsize] using hf
    obtain ⟨f, rfl⟩ : ∃ f, fuel = f + 1 := ⟨fuel - 1, by omega⟩
    have hs : stringifyV (Value.bool true) ++ rest = 't' :: ("rue".data ++ rest) := rfl
    rw [hs, parseVal_succ, if_neg (by decide), if_pos rfl, expectChars_append]
    rfl
  | .bool false, fuel, rest, _, hf, _ => by
    have h1 : (1 : Nat) < fuel := by simpa [vsize] using hf
    obtain ⟨f, rfl⟩ : ∃ f, fuel = f + 1 := ⟨fuel - 1, by omega⟩
    have hs : stringifyV (Value.bool false) ++ rest = 'f' :: ("alse".data ++ rest) := rfl
    rw [hs, parseVal_succ, if_neg (by decide), if_neg (by decide), if_pos rfl, expectChars_append]
    rfl
  | .str s, fuel, rest, _, hf, _ => by
    have h1 : (1 : Nat) < fuel := by simpa [vsize] using hf
    obtain ⟨f, rfl⟩ : ∃ f, fuel = f + 1 := ⟨fuel - 1, by omega⟩
    have hs : stringifyV (Value.str s) ++ rest =
        dquote :: (escapeChars s.data ++ (dquote :: rest)) := by
      simp [stringifyV, quoteChars]
    rw [hs, parseVal_succ, if_neg (by decide), if_neg (by decide), if_neg (by decide),
      if_pos rfl, parseStrAux_round]
    rfl
  | .num n, fuel, rest, _, hf, hr => by
    have h1 : (1 : Nat) < fuel := by simpa [vsize] using hf
    obtain ⟨f, rfl⟩ : ∃ f, fuel = f + 1 := ⟨fuel - 1, by omega⟩
    by_cases hn : n < 0
    · have hs : stringifyV (Value.num n) ++ rest = '-' :: (natToChars n.natAbs ++ rest) := by
        simp [stringifyV, intToChars, if_pos hn]
      rw [hs, parseVal_succ, if_neg (by decide), if_neg (by decide), if_neg (by decide),
        if_neg (by decide), if_neg (by decide), if_neg (by decide), if_pos rfl,
        parseDigits_natToChars _ _ hr, Option.map_some']
      have hval : -((n.natAbs : Nat) : Int) = n := by omega
      rw [hval]
    · obtain ⟨d, ds, hd⟩ : ∃ d ds, natToChars n.toNat = d :: ds := by
        cases hx : natToChars n.toNat with
        | nil => exact absurd hx (natToChars_ne_nil _)
        | cons d ds => exact ⟨d, ds, rfl⟩
      have hdig : isDigitChar d = true :=
        natToChars_digits _ d (by rw [hd]; exact List.mem_cons_self _ _)
      have hfa := digit_not_special d hdig
      have hs : stringifyV (Value.num n) ++ rest = d :: (ds ++ rest) := by
        simp [stringifyV, intToChars, if_neg hn, hd]
      rw [hs, parseVal_succ, if_neg hfa.1, if_neg hfa.2.1, if_neg hfa.2.2.1,
        if_neg hfa.2.2.2.1, if_neg hfa.2.2.2.2.1, if_neg hfa.2.2.2.2.2.1,
        if_neg hfa.2.2.2.2.2.2.1, if_pos hdig]
      have hlist : d :: (ds ++ rest) = natToChars n.toNat ++ rest := by rw [hd]; rfl
      rw [hlist, parseDigits_natToChars _ _ hr, Option.map_some']
      have hval : ((n.toNat : Nat) : Int) = n := by omega
      rw [hval]
  | .arr xs, fuel, rest, hp, hf, _ => by
    have hlp : VList.allPureJson xs = true := by simpa [Value.isPureJson] using hp
    have hsz : lsize xs + 2 < fuel := by simpa [vsize] using hf
    have hl1 := lsize_pos xs
    obtain ⟨f, rfl⟩ : ∃ f, fuel = f + 1 := ⟨fuel - 1, by omega⟩
    have hs : stringifyV (Value.arr xs) ++ rest = '[' :: (stringifyVL xs ++ (']' :: rest)) := by
      simp [stringifyV]
    rw [hs, parseVal_succ, if_neg (by decide), if_neg (by decide), if_neg (by decide),
      if_neg (by decide), if_pos rfl]
    cases xs with
    | nil =>
      obtain ⟨g, rfl⟩ : ∃ g, f = g + 1 := ⟨f - 1, by omega⟩
      have hnil : stringifyVL VList.nil ++ (']' :: rest) = ']' :: rest := rfl
      rw [hnil, parseArrTail_succ, if_pos rfl]
    | cons v tl =>
      have hv1 := vsize_pos v
      have ht1 := lsize_pos tl
      simp only [lsize] at hsz
      obtain ⟨g, rfl⟩ : ∃ g, f = g + 1 := ⟨f - 1, by omega⟩
      obtain ⟨c, cs, hhead, hc1, _⟩ := stringifyV_head v
      have hsl : stringifyVL (VList.cons v tl) ++ (']' :: rest) =
          c :: (cs ++ (listSepL tl ++ (']' :: rest))) := by
        rw [stringifyVL_cons, hhead]
        simp
      rw [hsl, parseArrTail_succ, if_neg hc1, ← hsl,
        parseElems_round v tl g (']' :: rest) (by simpa [Value.isPureJson] using hp)
          (by simp only [lsize]; omega) (by simp +decide [stopsList]),
        Option.some_bind]
      rfl
  | .obj fs, fuel, rest, hp, hf, _ => by
    have hlp : VFields.allPureJson fs = true := by simpa [Value.isPureJson] using hp
    have hsz : fsize fs + 2 < fuel := by simpa [vsize] using hf
    have hl1 := fsize_pos fs
    obtain ⟨f, rfl⟩ : ∃ f, fuel = f + 1 := ⟨fuel - 1, by omega⟩
    have hs : stringifyV (Value.obj fs) ++ rest =
        lbrace :: (stringifyVF fs ++ (rbrace :: rest)) := by
      simp [stringifyV]
    rw [hs, parseVal_succ, if_neg (by decide), if_neg (by decide), if_neg (by decide),
      if_neg (by decide), if_neg (by decide), if_pos rfl]
    cases fs with
    | nil =>
      obtain ⟨g, rfl⟩ : ∃ g, f = g + 1 := ⟨f - 1, by omega⟩
      have hnil : stringifyVF VFields.nil ++ (rbrace :: rest) = rbrace :: rest := rfl
      rw [hnil, parseObjTail_succ, if_pos rfl]
    | cons k v tl =>
      have hv1 := vsize_pos v
      have ht1 := fsize_pos tl
      simp only [fsize] at hsz
      obtain ⟨g, rfl⟩ : ∃ g, f = g + 1 := ⟨f - 1, by omega⟩
      have hsf : stringifyVF (VFields.cons k v tl) ++ (rbrace :: rest) =
          dquote :: ((escapeChars k.data ++ (dquote :: (':' :: (stringifyV v ++
            (listSepF tl ++ (rbrace :: rest))))))) := by
        rw [stringifyVF_cons]
        simp [quoteChars]
      rw [hsf, parseObjTail_succ, if_neg (by decide), ← hsf,
        parseFields_round k v tl g (rbrace :: rest) hlp
          (by simp only [fsize]; omega) (by simp +decide [stopsList]),
        Option.some_bind]
      rfl
termination_by v _ _ _ _ _ => sizeOf v
theorem parseElems_round : ∀ (v : Value) (tl : VList) (fuel : Nat) (rest : List Char),
    VList.allPureJson (.cons v tl) = true → lsize (.cons v tl) < fuel → stopsList rest = true →
    parseElems fuel (stringifyVL (.cons v tl) ++ rest) = some (.cons v tl, rest)
  | v, tl, fuel, rest, hp, hf, hr => by
    have hp2 : v.isPureJson = true ∧ VList.allPureJson tl = true := by
      simpa [VList.allPureJson, Bool.and_eq_true] using hp
    have hv1 := vsize_pos v
    have ht1 := lsize_pos tl
    simp only [lsize] at hf
    obtain ⟨e, rfl⟩ : ∃ e, fuel = e + 1 := ⟨fuel - 1, by omega⟩
    rw [stringifyVL_cons, List.append_assoc, parseElems_succ]
    cases tl with
    | nil =>
      have ha : listSepL VList.nil ++ rest = rest := by simp [listSepL]
      rw [ha, parseVal_round v e rest hp2.1
        (by have hn1 : lsize VList.nil = 1 := rfl; omega)
        (stopsList_headNotDigit hr), Option.some_bind]
      cases rest with
      | nil => exact parseElemsCont_nil e v
      | cons s r =>
        obtain ⟨t, rfl⟩ : ∃ t, e = t + 1 :=
          ⟨e - 1, by have hn1 : lsize VList.nil = 1 := rfl; omega⟩
        have hs : ¬(s = ',') := by
          intro hcontra
          subst hcontra
          simp +decide [stopsList] at hr
        rw [parseElemsCont_succ, if_neg hs]
    | cons w tl2 =>
      have ha : listSepL (VList.cons w tl2) ++ rest =
          ',' :: (stringifyVL (VList.cons w tl2) ++ rest) := by simp [listSepL]
      rw [ha, parseVal_round v e _ hp2.1 (by omega) (by simp +decide [headNotDigit]),
        Option.some_bind]
      obtain ⟨t, rfl⟩ : ∃ t, e = t + 1 := ⟨e - 1, by omega⟩
      rw [parseElemsCont_succ, if_pos rfl,
        parseElems_round w tl2 t rest hp2.2 (by omega) hr, Option.map_some']
termination_by v tl _ _ _ _ _ => sizeOf (VList.cons v tl)
theorem parseFields_round : ∀ (k : String) (v : Value) (tl : VFields) (fuel : Nat)
    (rest : List Char),
    VFields.allPureJson (.cons k v tl) = true → fsize (.cons k v tl) < fuel →
    stopsList rest = true →
    parseFields fuel (stringifyVF (.cons k v tl) ++ rest) = some (.cons k v tl, rest)
  | k, v, tl, fuel, rest, hp, hf, hr => by
    have hp2 : v.isPureJson = true ∧ VFields.allPureJson tl = true := by
      have h := hp
      simp only [VFields.allPureJson, Bool.and_eq_true] at h
      exact ⟨h.1.2, h.2⟩
    have hv1 := vsize_pos v
    have ht1 := fsize_pos tl
    simp only [fsize] at hf
    obtain ⟨u, rfl⟩ : ∃ u, fuel = u + 1 := ⟨fuel - 1, by omega⟩
    have hform : stringifyVF (VFields.cons k v tl) ++ rest =
        dquote :: (escapeChars k.data ++ (dquote :: (':' :: (stringifyV v ++
          (listSepF tl ++ rest))))) := by
      rw [stringifyVF_cons]
      simp [quoteChars]
    rw [hform, parseFields_succ, if_pos rfl, parseStrAux_round, Option.some_bind]
    obtain ⟨w, rfl⟩ : ∃ w, u = w + 1 := ⟨u - 1, by omega⟩
    rw [parseFieldsKeyCont_succ, if_pos rfl]
    cases tl with
    | nil =>
      have ha : listSepF VFields.nil ++ rest = rest := by simp [listSepF]
      rw [ha, parseVal_round v w rest hp2.1
        (by have hn1 : fsize VFields.nil = 1 := rfl; omega)
        (stopsList_headNotDigit hr), Option.some_bind]
      cases rest with
      | nil => exact parseFieldsValCont_nil w (String.mk k.data) v
      | cons s r =>
        obtain ⟨y, rfl⟩ : ∃ y, w = y + 1 :=
          ⟨w - 1, by have hn1 : fsize VFields.nil = 1 := rfl; omega⟩
        have hs : ¬(s = ',') := by
          intro hcontra
          subst hcontra
          simp +decide [stopsList] at hr
        rw [parseFieldsValCont_succ, if_neg hs]
    | cons k2 w2 tl2 =>
      have ha : listSepF (VFields.cons k2 w2 tl2) ++ rest =
          ',' :: (stringifyVF (VFields.cons k2 w2 tl2) ++ rest) := by simp [listSepF]
      rw [ha, parseVal_round v w _ hp2.1 (by omega) (by simp +decide [headNotDigit]),
        Option.some_bind]
      obtain ⟨y, rfl⟩ : ∃ y, w = y + 1 := ⟨w - 1, by omega⟩
      rw [parseFieldsValCont_succ, if_pos rfl,
        parseFields_round k2 w2 tl2 y rest hp2.2 (by omega) hr, Option.map_some']
termination_by k v tl _ _ _ _ _ => sizeOf (VFields.cons k v tl)
end

/-- Decode after encode is the identity on the pure JSON fragment. -/
theorem jsonParse_stringify (v : Value) (hp : v.isPureJson = true) :
    jsonParse (jsonStringify v) = .ok v := by
  have hb := vsize_le v
  have hround := parseVal_round v (4 * (stringifyV v).length + 4) [] hp (by omega) rfl
  rw [List.append_nil] at hround
  simp only [jsonParse, jsonStringify]
  rw [hround]

/-! # Helper lemmas about the pipeline -/

theorem issueResponseFactory_status (accept : String) (issue : Issue)
    (headers : Option (List (String × String))) :
    (issueResponseFactory accept issue headers).1.status = issue.status := by
  simp only [issueResponseFactory]
  cases Traffic.seralize (issueToValue issue) accept with
  | error e => rfl
  | ok o => cases o <;> rfl

/-! # Claim theorems -/

/-- Claim C3: for every registered code and argument tuple its factory
accepts, `Issues.new` returns an Issue whose `code` equals the given code
and whose `deflected` is a present boolean, never absent: the factory's
value when it supplied one, `false` when it omitted it. -/
theorem c3_instantiate_code_deflected (reg : Issues) (code : String) (args : IssueArgs)
    (factory : IssueFactory) (seed : IssueSeed)
    (hreg : recordGet reg.issues code = some factory)
    (hok : factory args = .ok seed) :
    ∃ issue, Issues.new reg code args = .ok issue ∧ issue.code = code ∧
      issue.deflected = some (seed.deflected.getD false) := by
  have heq : Issues.new reg code args =
      .ok { code := code, status := seed.status,
            deflected := some (seed.deflected.getD false),
            headers := seed.headers, extra := seed.extra } := by
    simp only [Issues.new, hreg, hok]
  exact ⟨_, heq, rfl, rfl⟩

/-- Witness for C3 at the built-in `/traffic/unknown` factory. -/
theorem c3_witness :
    ∃ issue, Issues.new ⟨trafficIssues⟩ "/traffic/unknown" IssueArgs.unit = .ok issue ∧
      issue.code = "/traffic/unknown" ∧ issue.deflected = some false :=
  c3_instantiate_code_deflected ⟨trafficIssues⟩ "/traffic/unknown" IssueArgs.unit
    unknownFactory
    { status := 500, deflected := some false, extra := .message "Unknown server error." }
    rfl rfl

/-- Claim C4: every built-in issue factory obeys the deflected/status
taxonomy: the four `invalid-*` codes and `unsupported-content-type` yield
status 400 with `deflected = true`, `unsupported-content` yields status 400
with `deflected = false`, and `unknown` yields status 500 with
`deflected = false`. -/
theorem c4_builtin_taxonomy (e : ZodError) (i : ZodIssue) (tl : List ZodIssue)
    (ss : List String) (he : e.issues = i :: tl) :
    (∃ a, Issues.new ⟨trafficIssues⟩ "/traffic/request/invalid-params" (.zerr e) = .ok a ∧
      a.status = 400 ∧ a.deflected = some true) ∧
    (∃ a, Issues.new ⟨trafficIssues⟩ "/traffic/request/invalid-query" (.zerr e) = .ok a ∧
      a.status = 400 ∧ a.deflected = some true) ∧
    (∃ a, Issues.new ⟨trafficIssues⟩ "/traffic/request/invalid-headers" (.zerr e) = .ok a ∧
      a.status = 400 ∧ a.deflected = some true) ∧
    (∃ a, Issues.new ⟨trafficIssues⟩ "/traffic/request/invalid-content" (.zerr e) = .ok a ∧
      a.status = 400 ∧ a.deflected = some true) ∧
    (∃ a, Issues.new ⟨trafficIssues⟩ "/traffic/request/unsupported-content-type"
        (.strs ss) = .ok a ∧ a.status = 400 ∧ a.deflected = some true) ∧
    (∃ a, Issues.new ⟨trafficIssues⟩ "/traffic/request/unsupported-content"
        IssueArgs.unit = .ok a ∧ a.status = 400 ∧ a.deflected = some false) ∧
    (∃ a, Issues.new ⟨trafficIssues⟩ "/traffic/unknown" IssueArgs.unit = .ok a ∧
      a.status = 500 ∧ a.deflected = some false) := by
  obtain ⟨is⟩ := e
  replace he : is = i :: tl := he
  subst he
  exact ⟨⟨_, rfl, rfl, rfl⟩, ⟨_, rfl, rfl, rfl⟩, ⟨_, rfl, rfl, rfl⟩, ⟨_, rfl, rfl, rfl⟩,
    ⟨_, rfl, rfl, rfl⟩, ⟨_, rfl, rfl, rfl⟩, ⟨_, rfl, rfl, rfl⟩⟩

/-- Witness for C4 at a concrete one-issue zod error. -/
theorem c4_witness :
    (∃ a, Issues.new ⟨trafficIssues⟩ "/traffic/request/invalid-params"
        (.zerr ⟨[⟨"Required"⟩]⟩) = .ok a ∧ a.status = 400 ∧ a.deflected = some true) ∧
    (∃ a, Issues.new ⟨trafficIssues⟩ "/traffic/request/invalid-query"
        (.zerr ⟨[⟨"Required"⟩]⟩) = .ok a ∧ a.status = 400 ∧ a.deflected = some true) ∧
    (∃ a, Issues.new ⟨trafficIssues⟩ "/traffic/request/invalid-headers"
        (.zerr ⟨[⟨"Required"⟩]⟩) = .ok a ∧ a.status = 400 ∧ a.deflected = some true) ∧
    (∃ a, Issues.new ⟨trafficIssues⟩ "/traffic/request/invalid-content"
        (.zerr ⟨[⟨"Required"⟩]⟩) = .ok a ∧ a.status = 400 ∧ a.deflected = some true) ∧
    (∃ a, Issues.new ⟨trafficIssues⟩ "/traffic/request/unsupported-content-type"
        (.strs ["json"]) = .ok a ∧ a.status = 400 ∧ a.deflected = some true) ∧
    (∃ a, Issues.new ⟨trafficIssues⟩ "/traffic/request/unsupported-content"
        IssueArgs.unit = .ok a ∧ a.status = 400 ∧ a.deflected = some false) ∧
    (∃ a, Issues.new ⟨trafficIssues⟩ "/traffic/unknown" IssueArgs.unit = .ok a ∧
      a.status = 500 ∧ a.deflected = some false) :=
  c4_builtin_taxonomy ⟨[⟨"Required"⟩]⟩ ⟨"Required"⟩ [] ["json"] rfl

/-- Claim C2: when the handler calls the bound response operation with a
status and mime matching a non-raw declared response but a payload failing
the declared content schema, the payload is never sent: the defect is
logged and the client receives the `/traffic/unknown` issue response with
status 500. -/
theorem c2_response_schema_failure (traffic : Traffic) (defn : RouteDefinition)
    (accept : String) (status : Nat) (type : String) (rawData : Option Value)
    (headers : Option (List (String × String))) (rdef : ResponseDefinition)
    (cdef : ContentDef) (e : ZodError)
    (hunknown : recordGet traffic.issues.issues "/traffic/unknown" = some unknownFactory)
    (hfind : defn.response.toArray.find? (responseMatches status type) = some rdef)
    (hraw : rdef.raw = false)
    (hcontent : rdef.content = some cdef)
    (hfail : contentDefToSchema cdef (rawData.getD .undefined) = .error e) :
    responseFactory traffic defn accept status type rawData headers =
      .ok ((issueResponseFactory accept unknownIssue none).1,
        "Response content is invalid." :: (issueResponseFactory accept unknownIssue none).2) ∧
    (issueResponseFactory accept unknownIssue none).1.status = 500 := by
  constructor
  · simp only [responseFactory, hfind, hraw, hcontent, hfail, Bool.false_eq_true, if_false,
      Issues.new, hunknown]
    rfl
  · rw [issueResponseFactory_status]
    rfl

/-- Witness for C2: a declared `{status: 200, mime: "json"}` response with a
`z.string()` content schema, called with a numeric payload. -/
theorem c2_witness :
    (responseFactory (Traffic.make []) stringContentRoute "application/json" 200 "json"
        (some (.num 5)) none =
      .ok ((issueResponseFactory "application/json" unknownIssue none).1,
        "Response content is invalid." ::
          (issueResponseFactory "application/json" unknownIssue none).2) ∧
    (issueResponseFactory "application/json" unknownIssue none).1.status = 500) :=
  c2_response_schema_failure (Traffic.make []) stringContentRoute "application/json" 200 "json"
    (some (.num 5)) none
    { status := 200, mime := .one "json", raw := false, content := some (.ztype zString) }
    (.ztype zString) ⟨[⟨"Expected string"⟩]⟩ rfl rfl rfl rfl rfl

/-- Claim C6 (code evaluation at the failing input): the handler calls the
bound response operation with the undeclared pair `(201, "json")` on a route
declaring only `(200, "json")`; the lookup finds no definition and reading
`.raw` off `undefined` throws, so the compiled route rejects instead of
logging and returning a 500-class issue response. -/
theorem c6_undeclared_pair_throws :
    responseFactory (Traffic.make []) jsonOnlyRoute "application/json" 201 "json"
        (some (.str "x")) none =
      .error "TypeError: Cannot read properties of undefined (reading 'raw')" := rfl

set_option maxRecDepth 8192 in
/-- Claim C5 counterexample: for the route whose only supported request
subtype is `json`, a request with `Content-Type: text/plain` does not get a
400 unsupported-content-type response: the Mime constructor throws
(`text/plain` has no `+suffix`), so the compiled route rejects. -/
theorem c5_counterexample :
    Traffic.route (Traffic.make []) jsonOnlyRoute trivialHandler [] textPlainRequest =
      .error "Invalid mime type." := rfl

set_option maxRecDepth 8192 in
/-- Claim C5 as amended: with `Content-Type: text/plain` the compiled route
throws `Invalid mime type.` (no response is produced); with a
structured-suffix content type such as `text/x+plain`, whose computed
subtype key `plain` is not `json`, the route returns status 400 with a
JSON body whose `code` is `/traffic/request/unsupported-content-type` and
whose `supported` is `["json"]`. -/
theorem c5_amended_unsupported_content_type :
    (Traffic.route (Traffic.make []) jsonOnlyRoute trivialHandler [] textPlainRequest =
      .error "Invalid mime type.") ∧
    (Traffic.route (Traffic.make []) jsonOnlyRoute trivialHandler [] suffixPlainRequest =
      .ok (unsupportedCTResponse ["json"])) ∧
    (unsupportedCTResponse ["json"]).1.status = 400 ∧
    (unsupportedCTResponse ["json"]).1.body =
      some (.str (jsonStringify (issueToValue unsupportedJsonIssue))) ∧
    objGet (issueToValue unsupportedJsonIssue) "code" =
      some (.str "/traffic/request/unsupported-content-type") ∧
    objGet (issueToValue unsupportedJsonIssue) "supported" =
      some (.arr (.cons (.str "json") .nil)) ∧
    jsonParse (jsonStringify (issueToValue unsupportedJsonIssue)) =
      .ok (issueToValue unsupportedJsonIssue) :=
  ⟨rfl, rfl, rfl, rfl, rfl, rfl,
    jsonParse_stringify (issueToValue unsupportedJsonIssue) rfl⟩

/-- Claim C10: a request without a `Content-Type` header never makes the
content-type stage throw: the effective type is the literal
`application/octet-stream`, splitting it on `+` returns it whole, and the
stage passes exactly when the route's declared mime list contains that
exact string. -/
theorem c10_no_content_type (defn : RouteDefinition) (request : HttpRequest)
    (h : headersGet request.headers "Content-Type" = none) :
    contentTypeStage (Traffic.make []) defn request =
      (if defn.request.mime.toArray.contains "application/octet-stream" then
        .ok (.inr "application/octet-stream")
      else
        .ok (.inl (unsupportedCTResponse defn.request.mime.toArray))) := by
  simp only [contentTypeStage, h, mimeOfHeader]
  simp only [show jsSplit2Pop "application/octet-stream" '+' = "application/octet-stream"
    from rfl]
  by_cases hc : defn.request.mime.toArray.contains "application/octet-stream"
  · rw [if_pos hc, if_pos hc]
  · rw [if_neg hc, if_neg hc]
    rfl

/-- Witness for C10: a route supporting exactly `application/octet-stream`
and a request without a `Content-Type` header pass the stage. -/
theorem c10_witness :
    contentTypeStage (Traffic.make [])
      { request := { mime := .one "application/octet-stream" },
        response := .one { status := 200, mime := .one "json", raw := true } }
      bareRequest = .ok (.inr "application/octet-stream") := by
  have h := c10_no_content_type
    { request := { mime := .one "application/octet-stream" },
      response := .one { status := 200, mime := .one "json", raw := true } }
    bareRequest rfl
  simpa using h

/-- Claim C7: the headers validation stage reads the value it validates for
every declared header name from the URL's query string, not from the HTTP
header map: its result is invariant under any change of the request's
header map (and body), and on a single declared name the validated value is
exactly `searchParams.get(key)`. -/
theorem c7_headers_read_from_query (hd : List (String × HeaderSchemaDef)) (u : URLModel)
    (h1 h2 : List (String × String)) (b1 b2 : String) :
    validateHeaders hd { url := u, headers := h1, body := b1 } =
      validateHeaders hd { url := u, headers := h2, body := b2 } ∧
    ∀ (k : String) (sch : HeaderSchemaDef),
      validateHeaders [(k, sch)] { url := u, headers := h1, body := b1 } =
        (match headerSchemaToZod sch
            (match searchParamsGet u k with
             | some s => Value.str s
             | none => Value.null) with
         | .ok d => .ok [(k, d)]
         | .error e => .error e) := by
  constructor
  · induction hd with
    | nil => rfl
    | cons p tl ih =>
      obtain ⟨key, sdef⟩ := p
      simp only [validateHeaders]
      cases headerSchemaToZod sdef
          (match searchParamsGet u key with
           | some s => Value.str s
           | none => Value.null) with
      | ok d => rw [ih]
      | error e => rfl
  · intro k sch
    simp only [validateHeaders]
    cases headerSchemaToZod sch
        (match searchParamsGet u k with
         | some s => Value.str s
         | none => Value.null) with
    | ok d => rfl
    | error e => rfl

/-! ### Helper lemmas for claim C9 -/

theorem except_bind_ok {e a b : Type} (x : a) (f : a → Except e b) :
    (Except.ok x : Except e a) >>= f = f x := rfl

theorem toNat_ofNat_valid (m : Nat) (h : m.isValidChar) : (Char.ofNat m).toNat = m := by
  simp [Char.ofNat, dif_pos h]
  rfl

theorem lowerChar_plus {c : Char} (h : lowerChar c = '+') : c = '+' := by
  by_cases hc : 'A' ≤ c ∧ c ≤ 'Z'
  · exfalso
    rw [lowerChar, if_pos hc] at h
    have h1 : 65 ≤ c.toNat := by
      have := hc.1
      rw [Char.le_def] at this
      exact this
    have h2 : c.toNat ≤ 90 := by
      have := hc.2
      rw [Char.le_def] at this
      exact this
    have hv : (c.toNat + 32).isValidChar := Or.inl (by omega)
    have := congrArg Char.toNat h
    rw [toNat_ofNat_valid _ hv] at this
    simp only [show ('+' : Char).toNat = 43 from rfl] at this
    omega
  · rwa [lowerChar, if_neg hc] at h

theorem mem_takeUntilChar {c sep : Char} : ∀ cs, c ∈ takeUntilChar sep cs → c ∈ cs
  | [], h => h
  | a :: cs, h => by
    simp only [takeUntilChar] at h
    by_cases ha : a = sep
    · rw [if_pos ha] at h
      exact absurd h (List.not_mem_nil c)
    · rw [if_neg ha] at h
      rcases List.mem_cons.mp h with h1 | h2
      · exact h1 ▸ List.mem_cons_self a cs
      · exact List.mem_cons_of_mem a (mem_takeUntilChar cs h2)

theorem mem_trimChars {c : Char} (cs : List Char) (h : c ∈ trimChars cs) : c ∈ cs := by
  simp only [trimChars, List.mem_reverse] at h
  have h1 := (List.dropWhile_sublist isWsChar).mem h
  rw [List.mem_reverse] at h1
  exact (List.dropWhile_sublist isWsChar).mem h1

theorem splitAllChar_no_sep {sep : Char} : ∀ cs : List Char, ¬ sep ∈ cs →
    splitAllChar sep cs = [cs]
  | [], _ => rfl
  | a :: cs, h => by
    have ha : ¬ a = sep := fun hh => h (hh ▸ List.mem_cons_self a cs)
    have htl : ¬ sep ∈ cs := fun hh => h (List.mem_cons_of_mem a hh)
    simp only [splitAllChar, splitAllChar_no_sep cs htl, if_neg ha]

theorem parseContentType_ok {s t : String} (h : parseContentType s = .ok t) :
    t = String.mk (lowerChars (trimChars (takeUntilChar ';' s.data))) := by
  simp only [parseContentType] at h
  split at h
  · split at h
    · injection h with h
      exact h.symm
    · exact absurd h (by simp)
  · exact absurd h (by simp)

theorem mimeNew_noPlus (s : String) (hplus : strHasChar s '+' = false) :
    ∃ err, Mime.new s = .error err := by
  cases hp : parseContentType s with
  | error e =>
    refine ⟨e, ?_⟩
    simp only [Mime.new, hp]
    rfl
  | ok t =>
    have ht := parseContentType_ok hp
    have hmem : ¬ '+' ∈ s.data := by simpa [strHasChar] using hplus
    have hplus2 : ¬ '+' ∈ t.data := by
      subst ht
      intro hm
      obtain ⟨c, hc, hlc⟩ := List.mem_map.mp hm
      have hc2 : c = '+' := lowerChar_plus hlc
      subst hc2
      exact hmem (mem_takeUntilChar _ (mem_trimChars _ hc))
    have hsplit : splitAllChar '+' t.data = [t.data] := splitAllChar_no_sep t.data hplus2
    refine ⟨"Invalid mime type.", ?_⟩
    simp only [Mime.new, hp, except_bind_ok]
    have hj : jsSplit2 t '+' = [t] := by
      simp only [jsSplit2, hsplit, List.take, List.map]
    rw [hj]
    simp [optTruthy]

theorem seralize_mime_error (data : Value) (type err : String) (ht : ¬ type = "")
    (he : Mime.new type = .error err) :
    Traffic.seralize data type = .error err := by
  simp only [Traffic.seralize, if_neg ht, he]
  rfl

/-- Claim C9: for every issue emitted through the issue-response path with
an effective `Accept` media type containing no `+` component (the
configured default `application/json` included), serialization throws
inside the Mime constructor (or never finds a codec), the error is caught
and logged, and the emitted response carries the issue's status with an
empty body: under such an `Accept`, an issue body is never rendered. -/
theorem c9_issue_serialization_fails (accept : String) (issue : Issue)
    (headers : Option (List (String × String)))
    (hplus : strHasChar accept '+' = false) :
    issueResponseFactory accept issue headers =
      ({ status := issue.status, body := none, headers := headers },
       ["Failed to serialize issue response."]) := by
  by_cases hacc : accept = ""
  · subst hacc
    rfl
  · obtain ⟨err, herr⟩ := mimeNew_noPlus accept hplus
    have hs := seralize_mime_error (issueToValue issue) accept err hacc herr
    simp only [issueResponseFactory, hs]

/-- Witness for C9: the default `Accept` of `application/json` never
renders an issue body; the unknown issue's 500 status is preserved. -/
theorem c9_witness :
    strHasChar "application/json" '+' = false ∧
    issueResponseFactory "application/json" unknownIssue none =
      ({ status := 500, body := none, headers := none },
       ["Failed to serialize issue response."]) :=
  ⟨rfl, c9_issue_serialization_fails "application/json" unknownIssue none rfl⟩

/-! ### Helper lemmas for claim C8 -/

theorem except_map_ok {e a b : Type} (x : a) (f : a → b) :
    (Except.ok x : Except e a).map f = .ok (f x) := rfl

/-- Claim C8: for the json and plain kinds, decode after encode is the
identity on representable values: whenever `Traffic.seralize` encodes a
representable value under a media type into a body, `Traffic.parse` of a
request carrying that body under the same `Content-Type` yields the value
back. -/
theorem c8_decode_encode_roundtrip (v : Value) (type : String) (body : String) (u : URLModel)
    (hrep : representable v type = true)
    (henc : Traffic.seralize v type = .ok (some body)) :
    Traffic.parse { url := u, headers := [("Content-Type", type)], body := body } =
      .ok (some v) := by
  cases hm : Mime.new type with
  | error err =>
    rw [representable, hm] at hrep
    exact absurd hrep (by simp)
  | ok m =>
    have hne : ¬ type = "" := by
      intro hh
      subst hh
      rw [show Mime.new "" = Except.error "invalid media type" from rfl] at hm
      exact Except.noConfusion hm
    have hhg : headersGet [("Content-Type", type)] "Content-Type" = some type := rfl
    simp only [representable, hm] at hrep
    simp only [Traffic.seralize, if_neg hne, hm, except_map_ok] at henc
    simp only [Traffic.parse, hhg, mimeOfHeader, if_neg hne, hm, except_map_ok]
    split at hrep
    · rename_i heq
      simp only [heq] at henc ⊢
      have hb : body = jsonStringify v := by
        injection henc with henc
        injection henc with henc
        exact henc.symm
      subst hb
      rw [jsonParse_stringify v hrep]
    · rename_i heq
      simp only [heq] at henc ⊢
      cases v with
      | str s =>
        have hb : body = s := by
          injection henc with henc
          injection henc with henc
          exact henc.symm
        subst hb
        rfl
      | null => exact absurd hrep (by simp [Value.isStr])
      | undefined => exact absurd hrep (by simp [Value.isStr])
      | bool b => exact absurd hrep (by simp [Value.isStr])
      | num n => exact absurd hrep (by simp [Value.isStr])
      | arr xs => exact absurd hrep (by simp [Value.isStr])
      | obj fs => exact absurd hrep (by simp [Value.isStr])
    · exact absurd hrep (by simp)

/-- Witness for C8: a one-field object roundtrips through the json codec
under `application/vnd+json`. -/
theorem c8_witness :
    representable c8val c8type = true ∧
    Traffic.seralize c8val c8type = .ok (some (jsonStringify c8val)) ∧
    Traffic.parse c8request = .ok (some c8val) :=
  ⟨rfl, rfl, c8_decode_encode_roundtrip c8val c8type (jsonStringify c8val) ⟨[]⟩ rfl rfl⟩

/-! ### Helper lemma for claim C1 -/

theorem emitIssue_validation (traffic : Traffic) (accept : String) (code : String)
    (hcode : recordGet traffic.issues.issues code = some validationFactory)
    (i : ZodIssue) (tl : List ZodIssue) :
    emitIssue traffic accept code (.zerr ⟨i :: tl⟩) =
      .ok (issueResponseFactory accept (validationIssue code i (i :: tl)) none) := by
  simp only [emitIssue, Issues.new, hcode, validationFactory]
  rfl

/-- Claim C1: for every route with declared params, query, or headers schema
maps and every request whose first failing stage (in the fixed order params,
query, headers) fails with error `e`, the compiled route under the default
configuration returns the 400 issue response for exactly the corresponding
code, independently of the handler — the handler is never invoked and no
later stage runs. -/
theorem c1_validation_short_circuit (defn : RouteDefinition)
    (rawParams : List (String × String)) (request : HttpRequest)
    (code : String) (e : ZodError) (i : ZodIssue) (tl : List ZodIssue)
    (hfail : firstValidationFailure defn rawParams request = some (code, e))
    (hne : e.issues = i :: tl) (handler : RouteHandler) :
    Traffic.route (Traffic.make []) defn handler rawParams request =
      .ok (issueResponseFactory (acceptOf request) (validationIssue code i (i :: tl)) none) ∧
    (issueResponseFactory (acceptOf request)
        (validationIssue code i (i :: tl)) none).1.status = 400 := by
  obtain ⟨is⟩ := e
  replace hne : is = i :: tl := hne
  subst hne
  refine ⟨?_, by rw [issueResponseFactory_status]; rfl⟩
  simp only [firstValidationFailure] at hfail
  cases hP : defn.request.params with
  | some ps =>
    cases hV : validateParams ps rawParams with
    | error e1 =>
      simp only [hP, hV] at hfail
      injection hfail with hpair
      injection hpair with hcode he
      subst hcode
      subst he
      simp only [Traffic.route, hP, hV]
      rw [emitIssue_validation (Traffic.make []) _ "/traffic/request/invalid-params" rfl i tl]
      simp only [except_map_ok]
      rfl
    | ok vs =>
      cases hQ : defn.request.query with
      | some qs =>
        cases hW : validateQuery qs request with
        | error e1 =>
          simp only [hP, hV, hQ, hW] at hfail
          injection hfail with hpair
          injection hpair with hcode he
          subst hcode
          subst he
          simp only [Traffic.route, hP, hV, hQ, hW]
          rw [emitIssue_validation (Traffic.make []) _ "/traffic/request/invalid-query" rfl i tl]
          simp only [except_map_ok]
          rfl
        | ok ws =>
          cases hH : defn.request.headers with
          | some hs =>
            cases hX : validateHeaders hs request with
            | error e1 =>
              simp only [hP, hV, hQ, hW, hH, hX] at hfail
              injection hfail with hpair
              injection hpair with hcode he
              subst hcode
              subst he
              simp only [Traffic.route, hP, hV, hQ, hW, hH, hX]
              rw [emitIssue_validation (Traffic.make []) _ "/traffic/request/invalid-headers" rfl i tl]
              simp only [except_map_ok]
              rfl
            | ok xs =>
              simp only [hP, hV, hQ, hW, hH, hX] at hfail
              exact absurd hfail (by simp)
          | none =>
            simp only [hP, hV, hQ, hW, hH] at hfail
            exact absurd hfail (by simp)
      | none =>
        cases hH : defn.request.headers with
        | some hs =>
          cases hX : validateHeaders hs request with
          | error e1 =>
            simp only [hP, hV, hQ, hH, hX] at hfail
            injection hfail with hpair
            injection hpair with hcode he
            subst hcode
            subst he
            simp only [Traffic.route, hP, hV, hQ, hH, hX]
            rw [emitIssue_validation (Traffic.make []) _ "/traffic/request/invalid-headers" rfl i tl]
            simp only [except_map_ok]
            rfl
          | ok xs =>
            simp only [hP, hV, hQ, hH, hX] at hfail
            exact absurd hfail (by simp)
        | none =>
          simp only [hP, hV, hQ, hH] at hfail
          exact absurd hfail (by simp)
  | none =>
    cases hQ : defn.request.query with
    | some qs =>
      cases hW : validateQuery qs request with
      | error e1 =>
        simp only [hP, hQ, hW] at hfail
        injection hfail with hpair
        injection hpair with hcode he
        subst hcode
        subst he
        simp only [Traffic.route, hP, hQ, hW]
        rw [emitIssue_validation (Traffic.make []) _ "/traffic/request/invalid-query" rfl i tl]
        simp only [except_map_ok]
        rfl
      | ok ws =>
        cases hH : defn.request.headers with
        | some hs =>
          cases hX : validateHeaders hs request with
          | error e1 =>
            simp only [hP, hQ, hW, hH, hX] at hfail
            injection hfail with hpair
            injection hpair with hcode he
            subst hcode
            subst he
            simp only [Traffic.route, hP, hQ, hW, hH, hX]
            rw [emitIssue_validation (Traffic.make []) _ "/traffic/request/invalid-headers" rfl i tl]
            simp only [except_map_ok]
            rfl
          | ok xs =>
            simp only [hP, hQ, hW, hH, hX] at hfail
            exact absurd hfail (by simp)
        | none =>
          simp only [hP, hQ, hW, hH] at hfail
          exact absurd hfail (by simp)
    | none =>
      cases hH : defn.request.headers with
      | some hs =>
        cases hX : validateHeaders hs request with
        | error e1 =>
          simp only [hP, hQ, hH, hX] at hfail
          injection hfail with hpair
          injection hpair with hcode he
          subst hcode
          subst he
          simp only [Traffic.route, hP, hQ, hH, hX]
          rw [emitIssue_validation (Traffic.make []) _ "/traffic/request/invalid-headers" rfl i tl]
          simp only [except_map_ok]
          rfl
        | ok xs =>
          simp only [hP, hQ, hH, hX] at hfail
          exact absurd hfail (by simp)
      | none =>
        simp only [hP, hQ, hH] at hfail
        exact absurd hfail (by simp)

/-- Witness for C1: a route requiring path param `id` with the any-string
sentinel, a request resolving no params: the params stage fails and the
compiled route answers 400 invalid-params for every handler. -/
theorem c1_witness :
    Traffic.route (Traffic.make []) idParamRoute trivialHandler [] bareRequest =
      .ok (issueResponseFactory (acceptOf bareRequest)
        (validationIssue "/traffic/request/invalid-params" ⟨"Expected string"⟩
          [⟨"Expected string"⟩]) none) ∧
    (issueResponseFactory (acceptOf bareRequest)
        (validationIssue "/traffic/request/invalid-params" ⟨"Expected string"⟩
          [⟨"Expected string"⟩]) none).1.status = 400 :=
  c1_validation_short_circuit idParamRoute [] bareRequest
    "/traffic/request/invalid-params" ⟨[⟨"Expected string"⟩]⟩ ⟨"Expected string"⟩ []
    rfl rfl trivialHandler

end Traffic
